import Mathlib

/-!
Course recommendation engine (`src/server.js`)

A shallow embedding of the class `FuzzyInferenceSystem` of `src/server.js` and
theorems about it.

Modelling conventions.

* JavaScript numbers are modelled by exact rationals `ℚ`.  All decimal constants
  of the source (`0.7`, `1.15`, `5.0`, ...) are the rationals they denote.
* JavaScript arrays are `List`s.  `arr[i]` read as a value that may be
  `undefined` is `arr[i]?`; `arr[i] += v`, `arr[i] *= k` and `arr[i] = v` on an
  existing slot are `modifyAt`.
* The input object is the structure `Inputs`; the property access
  `inputs[field]` by a field name is `Inputs.get` over the enumeration `Field`
  of the eighteen field names.
* `Array.prototype.sort` is specified to be a stable sort; it is modelled by the
  stable insertion sort `arraySort` driven by the same comparator function.
* `console.log` calls have no effect on the computed values and are left out.
-/

namespace FuzzyInferenceSystem

/-! ## Data model -/

/-- The eighteen property names of the input object (lines 471-490, 376-395). -/
inductive Field where
  | cgpa
  | programming
  | multimedia
  | machineLearning
  | database
  | softwareEngineering
  | dataScience
  | webDevelopment
  | cybersecurity
  | artificialIntelligence
  | mobileAppDevelopment
  | gameDevelopment
  | uiuxDesign
  | iot
  | databaseDesign
  | softwareValidationTesting
  | difficulty
  | learningStyle
  deriving DecidableEq

/-- The input object handed to `recommend`. -/
structure Inputs where
  cgpa : ℚ
  programming : ℚ
  multimedia : ℚ
  machineLearning : ℚ
  database : ℚ
  softwareEngineering : ℚ
  dataScience : ℚ
  webDevelopment : ℚ
  cybersecurity : ℚ
  artificialIntelligence : ℚ
  mobileAppDevelopment : ℚ
  gameDevelopment : ℚ
  uiuxDesign : ℚ
  iot : ℚ
  databaseDesign : ℚ
  softwareValidationTesting : ℚ
  difficulty : ℚ
  learningStyle : ℚ
  deriving DecidableEq

/-- Property read `inputs[field]`. -/
def Inputs.get (inputs : Inputs) : Field → ℚ
  | .cgpa => inputs.cgpa
  | .programming => inputs.programming
  | .multimedia => inputs.multimedia
  | .machineLearning => inputs.machineLearning
  | .database => inputs.database
  | .softwareEngineering => inputs.softwareEngineering
  | .dataScience => inputs.dataScience
  | .webDevelopment => inputs.webDevelopment
  | .cybersecurity => inputs.cybersecurity
  | .artificialIntelligence => inputs.artificialIntelligence
  | .mobileAppDevelopment => inputs.mobileAppDevelopment
  | .gameDevelopment => inputs.gameDevelopment
  | .uiuxDesign => inputs.uiuxDesign
  | .iot => inputs.iot
  | .databaseDesign => inputs.databaseDesign
  | .softwareValidationTesting => inputs.softwareValidationTesting
  | .difficulty => inputs.difficulty
  | .learningStyle => inputs.learningStyle

/-- Property write `inputs[field] = v` (used to state claims that vary one field). -/
def Inputs.set (inputs : Inputs) (f : Field) (v : ℚ) : Inputs :=
  match f with
  | .cgpa => { inputs with cgpa := v }
  | .programming => { inputs with programming := v }
  | .multimedia => { inputs with multimedia := v }
  | .machineLearning => { inputs with machineLearning := v }
  | .database => { inputs with database := v }
  | .softwareEngineering => { inputs with softwareEngineering := v }
  | .dataScience => { inputs with dataScience := v }
  | .webDevelopment => { inputs with webDevelopment := v }
  | .cybersecurity => { inputs with cybersecurity := v }
  | .artificialIntelligence => { inputs with artificialIntelligence := v }
  | .mobileAppDevelopment => { inputs with mobileAppDevelopment := v }
  | .gameDevelopment => { inputs with gameDevelopment := v }
  | .uiuxDesign => { inputs with uiuxDesign := v }
  | .iot => { inputs with iot := v }
  | .databaseDesign => { inputs with databaseDesign := v }
  | .softwareValidationTesting => { inputs with softwareValidationTesting := v }
  | .difficulty => { inputs with difficulty := v }
  | .learningStyle => { inputs with learningStyle := v }

/-- Field `this.courseNames` set by the constructor (lines 23-29). -/
def courseNames : List String :=
  [ "Gaming",
    "Web Development",
    "Fuzzy Logic",
    "Database Design",
    "Software Validation & Verification" ]

/-- In-place update of slot `i` of an array: `arr[i] = f(arr[i])`. -/
def modifyAt (f : ℚ → ℚ) : List ℚ → Nat → List ℚ
  | [], _ => []
  | x :: xs, 0 => f x :: xs
  | x :: xs, n + 1 => x :: modifyAt f xs n

/-! ## Membership functions -/

/-- Triangular membership function `trimf(x, params)` (lines 33-39). -/
def trimf (x : ℚ) (params : ℚ × ℚ × ℚ) : ℚ :=
  let (a, b, c) := params
  if x ≤ a ∨ x ≥ c then 0
  else if x = b then 1
  else if x < b then (x - a) / (b - a)
  else (c - x) / (c - b)

/-- Object `{low, medium, high}` returned by the CGPA, subject and interest
membership getters. -/
structure LevelMembership where
  low : ℚ
  medium : ℚ
  high : ℚ
  deriving DecidableEq

/-- Object `{easy, moderate, difficult}` returned by `getDifficultyMembership`. -/
structure DifficultyMembership where
  easy : ℚ
  moderate : ℚ
  difficult : ℚ
  deriving DecidableEq

/-- Object `{visual, kinesthetic, readingWriting, auditory}` returned by
`getLearningStyleMembership`. -/
structure StyleMembership where
  visual : ℚ
  kinesthetic : ℚ
  readingWriting : ℚ
  auditory : ℚ
  deriving DecidableEq

/-- Membership values for CGPA (lines 54-61). -/
def getCGPAMembership (cgpa : ℚ) : LevelMembership :=
  { low := trimf cgpa (1, 1, 3)
    medium := trimf cgpa (2, 3, 4)
    high := trimf cgpa (3, 5, 5) }

/-- Membership values for subject grades (lines 64-71). -/
def getSubjectMembership (grade : ℚ) : LevelMembership :=
  { low := trimf grade (0, 0, 2)
    medium := trimf grade (1, 2.5, 4)
    high := trimf grade (3, 5, 5) }

/-- Membership values for interest levels (lines 74-80). -/
def getInterestMembership (interest : ℚ) : LevelMembership :=
  { low := trimf interest (1, 1, 3)
    medium := trimf interest (2, 3, 4)
    high := trimf interest (3, 5, 5) }

/-- Membership values for difficulty (lines 83-89). -/
def getDifficultyMembership (difficulty : ℚ) : DifficultyMembership :=
  { easy := trimf difficulty (0.5, 1, 1.5)
    moderate := trimf difficulty (1.5, 2, 2.5)
    difficult := trimf difficulty (2.5, 3, 3.5) }

/-- Membership values for learning style (lines 92-99). -/
def getLearningStyleMembership (style : ℚ) : StyleMembership :=
  { visual := trimf style (0.5, 1, 1.5)
    kinesthetic := trimf style (1.5, 2, 2.5)
    readingWriting := trimf style (2.5, 3, 3.5)
    auditory := trimf style (3.5, 4, 4.5) }

/-! ## Subject scoring -/

/-- Method `subjectScoring(inputs)` (lines 102-151). -/
def subjectScoring (inputs : Inputs) : List ℚ :=
  let scores : List ℚ := [0, 0, 0, 0, 0]
  let threshold : ℚ := 1.5
  -- Programming subject mapping
  let scores :=
    if inputs.programming ≥ threshold then
      let normalized := inputs.programming / 5.0
      let scores := modifyAt (· + normalized * 0.7) scores 0
      let scores := modifyAt (· + normalized * 1.0) scores 1
      let scores := modifyAt (· + normalized * 0.6) scores 2
      let scores := modifyAt (· + normalized * 0.8) scores 3
      let scores := modifyAt (· + normalized * 0.9) scores 4
      scores
    else scores
  -- Multimedia subject mapping
  let scores :=
    if inputs.multimedia ≥ threshold then
      let normalized := inputs.multimedia / 5.0
      let scores := modifyAt (· + normalized * 1.0) scores 0
      let scores := modifyAt (· + normalized * 0.8) scores 1
      scores
    else scores
  -- Machine Learning subject mapping
  let scores :=
    if inputs.machineLearning ≥ threshold then
      let normalized := inputs.machineLearning / 5.0
      let scores := modifyAt (· + normalized * 1.0) scores 2
      scores
    else scores
  -- Database subject mapping
  let scores :=
    if inputs.database ≥ threshold then
      let normalized := inputs.database / 5.0
      let scores := modifyAt (· + normalized * 1.0) scores 3
      scores
    else scores
  -- Software Engineering subject mapping
  let scores :=
    if inputs.softwareEngineering ≥ threshold then
      let normalized := inputs.softwareEngineering / 5.0
      let scores := modifyAt (· + normalized * 0.8) scores 1
      let scores := modifyAt (· + normalized * 1.0) scores 4
      scores
    else scores
  scores

/-! ## Interest scoring -/

/-- An entry `{indices, course, weights}` of `interestMap`. -/
structure InterestEntry where
  indices : List Field
  course : Nat
  weights : List ℚ

/-- The constant table `interestMap` (lines 161-172). -/
def interestMap : List InterestEntry :=
  [ -- Gaming interests
    { indices := [.dataScience, .webDevelopment, .mobileAppDevelopment], course := 0,
      weights := [1.0, 0.8, 0.9] },
    -- Web Development interests
    { indices := [.webDevelopment, .cybersecurity, .uiuxDesign], course := 1,
      weights := [0.9, 1.0, 0.8] },
    -- Fuzzy Logic interests
    { indices := [.artificialIntelligence, .uiuxDesign, .iot], course := 2,
      weights := [1.0, 0.8, 0.9] },
    -- Database Design interests
    { indices := [.cybersecurity, .databaseDesign], course := 3,
      weights := [0.8, 1.0] },
    -- Software Validation interests
    { indices := [.artificialIntelligence, .softwareValidationTesting], course := 4,
      weights := [0.7, 1.0] } ]

/-- The inner loop `entry.indices.forEach((field, fieldIdx) => ...)` of
`interestScoring` (lines 175-182): the final values of `(total, count)`.
The guard `val && val >= threshold` is `val ≠ 0 ∧ val ≥ threshold`. -/
def interestTotals (inputs : Inputs) (threshold : ℚ) (entry : InterestEntry) : ℚ × Nat :=
  entry.indices.enum.foldl
    (fun (acc : ℚ × Nat) (p : Nat × Field) =>
      let val := inputs.get p.2
      if val ≠ 0 ∧ val ≥ threshold then
        (acc.1 + val * entry.weights.getD p.1 0, acc.2 + 1)
      else acc)
    (0, 0)

/-- Method `interestScoring(inputs)` (lines 154-192). -/
def interestScoring (inputs : Inputs) : List ℚ :=
  let scores : List ℚ := [0, 0, 0, 0, 0]
  let threshold : ℚ := 1.5
  interestMap.foldl
    (fun (scores : List ℚ) (entry : InterestEntry) =>
      let (total, count) := interestTotals inputs threshold entry
      if count > 0 then
        let contribution := total / count / 5.0
        modifyAt (· + contribution) scores entry.course
      else scores)
    scores

/-! ## Fuzzy rules -/

/-- Method `evaluateFuzzyRules(inputs)` (lines 195-237).  `Math.min` of five
arguments and `Math.max` of three arguments are nested binary `min` / `max`. -/
def evaluateFuzzyRules (inputs : Inputs) : List ℚ :=
  let cgpaMem := getCGPAMembership inputs.cgpa
  let progMem := getSubjectMembership inputs.programming
  let diffMem := getDifficultyMembership inputs.difficulty
  let styleMem := getLearningStyleMembership inputs.learningStyle
  let dataSciMem := getInterestMembership inputs.dataScience
  let webDevMem := getInterestMembership inputs.webDevelopment
  let cyberMem := getInterestMembership inputs.cybersecurity
  let aiMem := getInterestMembership inputs.artificialIntelligence
  let gameMem := getInterestMembership inputs.gameDevelopment
  let iotMem := getInterestMembership inputs.iot
  let testingMem := getInterestMembership inputs.softwareValidationTesting
  let output : List ℚ := [0, 0, 0, 0, 0]
  -- Database Design Rules
  let dbRule1 := min cgpaMem.high (min progMem.high (min dataSciMem.high
    (min diffMem.easy styleMem.visual)))
  let dbRule2 := min cgpaMem.medium (min progMem.medium (min dataSciMem.medium
    (min diffMem.easy styleMem.kinesthetic)))
  let output := modifyAt (fun o => max o (max dbRule1 dbRule2)) output 3
  -- Web Development Rules
  let webRule1 := min cgpaMem.high (min progMem.high (min webDevMem.high
    (min diffMem.easy styleMem.readingWriting)))
  let webRule2 := min cgpaMem.medium (min progMem.medium (min webDevMem.medium
    (min diffMem.easy styleMem.kinesthetic)))
  let output := modifyAt (fun o => max o (max webRule1 webRule2)) output 1
  -- Software Validation Rules
  let softRule1 := min cgpaMem.high (min progMem.high (min cyberMem.high
    (min diffMem.moderate styleMem.auditory)))
  let softRule2 := min cgpaMem.medium (min progMem.medium (min testingMem.high
    (min diffMem.moderate styleMem.readingWriting)))
  let output := modifyAt (fun o => max o (max softRule1 softRule2)) output 4
  -- Fuzzy Logic Rules
  let fuzzyRule1 := min cgpaMem.high (min progMem.high (min aiMem.high
    (min diffMem.difficult styleMem.visual)))
  let fuzzyRule2 := min cgpaMem.medium (min progMem.medium (min iotMem.medium
    (min diffMem.difficult styleMem.auditory)))
  let output := modifyAt (fun o => max o (max fuzzyRule1 fuzzyRule2)) output 2
  -- Gaming Rules
  let gameRule1 := min cgpaMem.high (min progMem.high (min gameMem.high
    (min diffMem.moderate styleMem.visual)))
  let gameRule2 := min cgpaMem.medium (min progMem.medium (min gameMem.medium
    (min diffMem.moderate styleMem.kinesthetic)))
  let output := modifyAt (fun o => max o (max gameRule1 gameRule2)) output 0
  output

/-! ## Learning-preference adjustment -/

/-- Method `adjustByLearningPreferences(scores, difficulty, style)`
(lines 240-281).  The `switch` statements compare with `===`. -/
def adjustByLearningPreferences (scores : List ℚ) (difficulty style : ℚ) : List ℚ :=
  let adjusted := scores
  -- Difficulty adjustments
  let adjusted :=
    if difficulty = 1 then
      let adjusted := modifyAt (· * 1.2) adjusted 1
      let adjusted := modifyAt (· * 1.2) adjusted 3
      adjusted
    else if difficulty = 2 then
      let adjusted := modifyAt (· * 1.1) adjusted 0
      let adjusted := modifyAt (· * 1.1) adjusted 4
      adjusted
    else if difficulty = 3 then
      let adjusted := modifyAt (· * 1.2) adjusted 2
      adjusted
    else adjusted
  -- Learning Style adjustments
  let adjusted :=
    if style = 1 then
      let adjusted := modifyAt (· * 1.1) adjusted 0
      let adjusted := modifyAt (· * 1.1) adjusted 2
      let adjusted := modifyAt (· * 1.1) adjusted 3
      adjusted
    else if style = 2 then
      let adjusted := modifyAt (· * 1.15) adjusted 0
      let adjusted := modifyAt (· * 1.15) adjusted 1
      let adjusted := modifyAt (· * 1.15) adjusted 3
      adjusted
    else if style = 3 then
      let adjusted := modifyAt (· * 1.1) adjusted 1
      let adjusted := modifyAt (· * 1.1) adjusted 4
      adjusted
    else if style = 4 then
      let adjusted := modifyAt (· * 1.05) adjusted 2
      let adjusted := modifyAt (· * 1.05) adjusted 4
      adjusted
    else adjusted
  adjusted

/-! ## Ranking and the main entry point -/

/-- `scores.map((score, idx) => score + other[idx])`; a missing `other[idx]`
cannot occur for arrays of equal length and is read as `0`. -/
def mapAddIdx (scores : List ℚ) (other : Nat → ℚ) : List ℚ :=
  scores.enum.map (fun p => p.2 + other p.1)

/-- The value of `scores` at line 312 of `recommend`: the part of the body of
`recommend` that computes the final score array (lines 289-312). -/
def finalScores (inputs : Inputs) : List ℚ :=
  -- Calculate scores using different methods
  let scores := subjectScoring inputs
  let interestScores := interestScoring inputs
  -- Combine subject and interest scores
  let scores := mapAddIdx scores (fun idx => interestScores.getD idx 0)
  -- Apply fuzzy rules
  let fuzzyScores := evaluateFuzzyRules inputs
  -- Enhance with fuzzy rules (add 30% bonus)
  let scores := mapAddIdx scores (fun idx => fuzzyScores.getD idx 0 * 0.3)
  -- Apply learning preferences
  let scores := adjustByLearningPreferences scores inputs.difficulty inputs.learningStyle
  -- Ensure minimum scores
  let scores := scores.map (fun score => max score 0.1)
  scores

/-- An element `{course, score, confidence, index}` of `courseScores`
(lines 316-321).  `course` is `none` where `this.courseNames[index]` is
`undefined`. -/
structure CourseScore where
  course : Option String
  score : ℚ
  confidence : ℚ
  index : Nat
  deriving DecidableEq

/-- The object returned by `recommend` (lines 327-338).  A field is `none` where
the array read that fills it is `undefined`. -/
structure RecommendationResult where
  firstRecommendedCourse : Option String
  alternativeRecommendedCourse : Option String
  firstConfidence : ℚ
  secondConfidence : ℚ
  probability_Gaming : Option ℚ
  probability_WebDevelopment : Option ℚ
  probability_FuzzyLogic : Option ℚ
  probability_DatabaseDesign : Option ℚ
  probability_SoftwareValidation_Verification : Option ℚ
  allScores : List CourseScore
  deriving DecidableEq

/-- Insertion of `a` in front of the first element `b` with `cmp a b ≤ 0`. -/
def sortInsert {α : Type} (cmp : α → α → ℚ) (a : α) : List α → List α
  | [] => [a]
  | b :: l => if cmp a b ≤ 0 then a :: b :: l else b :: sortInsert cmp a l

/-- The call `arr.sort(cmp)`: a stable sort by the comparator `cmp`, where
`cmp a b ≤ 0` keeps `a` before `b`. -/
def arraySort {α : Type} (cmp : α → α → ℚ) : List α → List α
  | [] => []
  | a :: l => sortInsert cmp a (arraySort cmp l)

/-- The comparator `(a, b) => b.score - a.score` passed to `sort` (line 324). -/
def scoreComparator (a b : CourseScore) : ℚ := b.score - a.score

/-- The array `courseScores` before sorting (lines 316-321). -/
def courseScoresOf (scores : List ℚ) : List CourseScore :=
  scores.enum.map (fun p =>
    { course := courseNames[p.1]?
      score := p.2
      confidence := p.2
      index := p.1 })

/-- Method `recommend(inputs)` (lines 284-353).  The result is `none` where the
source raises a `TypeError` on reading a property of the undefined
`courseScores[0]` or `courseScores[1]`. -/
def recommend (inputs : Inputs) : Option RecommendationResult :=
  let scores := finalScores inputs
  -- Create course scores with names and sort them
  let courseScores := courseScoresOf scores
  -- Sort by scores (descending - highest first)
  let courseScores := arraySort scoreComparator courseScores
  match courseScores with
  | first :: second :: _ =>
    some
      { firstRecommendedCourse := first.course
        alternativeRecommendedCourse := second.course
        firstConfidence := first.confidence
        secondConfidence := second.confidence
        probability_Gaming := scores[0]?
        probability_WebDevelopment := scores[1]?
        probability_FuzzyLogic := scores[2]?
        probability_DatabaseDesign := scores[3]?
        probability_SoftwareValidation_Verification := scores[4]?
        allScores := courseScores }
  | _ => none

/-- The canonical sample input of the `/api/test-sample` endpoint (lines 376-395). -/
def sampleInput : Inputs :=
  { cgpa := 5
    programming := 4
    multimedia := 5
    machineLearning := 4
    database := 4
    softwareEngineering := 4
    dataScience := 5
    webDevelopment := 4
    cybersecurity := 5
    artificialIntelligence := 4
    mobileAppDevelopment := 5
    gameDevelopment := 4
    uiuxDesign := 4
    iot := 5
    databaseDesign := 3
    softwareValidationTesting := 5
    difficulty := 2
    learningStyle := 3 }

/-! ## The `/api/recommend` boundary mapping -/

/-- What the request body holds for one property, classified by what the library
function `parseInt` makes of it.

* `missing`: the property is absent (`undefined`).
* `nonNumeric`: a value whose string form has no leading integer (`"abc"`, `""`,
  `null`, `true`, an object).
* `integer v small`: the integer `v` of magnitude below `10^21`, as a number or
  as the string of its decimal digits.  Below `10^21` the string form of a number
  is its decimal digits, so `parseInt` reads `v` back.
* `leading v`: any other value whose string form starts with the integer `v`
  and goes on with other characters, so that `parseInt` reads `v` and drops the
  rest: the string `"4abc"` reads `4`, the number `3.7` reads `3`, and a number of
  magnitude `10^21` or more, which is rendered in exponent notation (`1e+21`),
  reads only its leading digits (`1`). -/
inductive RawValue where
  | missing
  | nonNumeric
  | integer (v : ℤ) (small : |v| < 10 ^ 21)
  | leading (v : ℤ)

/-- The library function `parseInt` on a property of the request body; `none` is
`NaN`.  A missing property and a value with no leading integer give `NaN`; an
integer of magnitude below `10^21` is read back as itself; any other value gives
the integer its string form starts with. -/
def parseInt : RawValue → Option ℤ
  | .missing => none
  | .nonNumeric => none
  | .integer v _ => some v
  | .leading v => some v

/-- The expression `parseInt(...) || fallback`: the fallback replaces the falsy
values `NaN` and `0`. -/
def orDefault (parsed : Option ℤ) (fallback : ℚ) : ℚ :=
  match parsed with
  | none => fallback
  | some v => if v = 0 then fallback else (v : ℚ)

/-- The object `fisInput` built by the `/api/recommend` handler from the request
body `input` (lines 471-490). -/
def fisInput (input : Field → RawValue) : Inputs :=
  { cgpa := orDefault (parseInt (input .cgpa)) 3
    programming := orDefault (parseInt (input .programming)) 0
    multimedia := orDefault (parseInt (input .multimedia)) 0
    machineLearning := orDefault (parseInt (input .machineLearning)) 0
    database := orDefault (parseInt (input .database)) 0
    softwareEngineering := orDefault (parseInt (input .softwareEngineering)) 0
    dataScience := orDefault (parseInt (input .dataScience)) 1
    webDevelopment := orDefault (parseInt (input .webDevelopment)) 1
    cybersecurity := orDefault (parseInt (input .cybersecurity)) 1
    artificialIntelligence := orDefault (parseInt (input .artificialIntelligence)) 1
    mobileAppDevelopment := orDefault (parseInt (input .mobileAppDevelopment)) 1
    gameDevelopment := orDefault (parseInt (input .gameDevelopment)) 1
    uiuxDesign := orDefault (parseInt (input .uiuxDesign)) 1
    iot := orDefault (parseInt (input .iot)) 1
    databaseDesign := orDefault (parseInt (input .databaseDesign)) 1
    softwareValidationTesting := orDefault (parseInt (input .softwareValidationTesting)) 1
    difficulty := orDefault (parseInt (input .difficulty)) 2
    learningStyle := orDefault (parseInt (input .learningStyle)) 1 }

/-! ## Specification-side definitions

The definitions of this section follow the wording of the specification; the
theorems below compare them with the definitions translated from the source. -/

/-- The normalised grade `n(g)` of the specification: `g / 5` if `g ≥ 1.5` and
`0` otherwise. -/
def normalizedGrade (g : ℚ) : ℚ := if g ≥ 1.5 then g / 5 else 0

/-- The interest groups as the specification lists them: the fields that feed
each course, each with its weight. -/
def interestGroup : Nat → List (Field × ℚ)
  | 0 => [(.dataScience, 1.0), (.webDevelopment, 0.8), (.mobileAppDevelopment, 0.9)]
  | 1 => [(.webDevelopment, 0.9), (.cybersecurity, 1.0), (.uiuxDesign, 0.8)]
  | 2 => [(.artificialIntelligence, 1.0), (.uiuxDesign, 0.8), (.iot, 0.9)]
  | 3 => [(.cybersecurity, 0.8), (.databaseDesign, 1.0)]
  | 4 => [(.artificialIntelligence, 0.7), (.softwareValidationTesting, 1.0)]
  | _ => []

/-- The interest slot of a course as the specification words it: `0` if no field
of the group has value `≥ 1.5`, otherwise the sum of `value * weight` over the
fields with value `≥ 1.5`, divided by the number of such fields, divided by 5. -/
def interestSlotSpec (r : Inputs) (course : Nat) : ℚ :=
  let active := (interestGroup course).filter (fun p => decide (r.get p.1 ≥ 1.5))
  if active.length = 0 then 0
  else (active.map (fun p => r.get p.1 * p.2)).sum / active.length / 5

/-- The difficulty multiplier `D(d, i)` of the specification: `1.2` on Web
Development and Database Design for `d = 1`, `1.1` on Gaming and Software
Validation for `d = 2`, `1.2` on Fuzzy Logic for `d = 3`, and `1` otherwise. -/
def difficultyFactor (d : ℚ) (i : Nat) : ℚ :=
  if d = 1 ∧ (i = 1 ∨ i = 3) then 1.2
  else if d = 2 ∧ (i = 0 ∨ i = 4) then 1.1
  else if d = 3 ∧ i = 2 then 1.2
  else 1

/-- The learning-style multiplier `S(t, i)` of the specification: `1.1` on
Gaming, Fuzzy Logic and Database Design for `t = 1`, `1.15` on Gaming, Web
Development and Database Design for `t = 2`, `1.1` on Web Development and
Software Validation for `t = 3`, `1.05` on Fuzzy Logic and Software Validation
for `t = 4`, and `1` otherwise. -/
def styleFactor (t : ℚ) (i : Nat) : ℚ :=
  if t = 1 ∧ (i = 0 ∨ i = 2 ∨ i = 3) then 1.1
  else if t = 2 ∧ (i = 0 ∨ i = 1 ∨ i = 3) then 1.15
  else if t = 3 ∧ (i = 1 ∨ i = 4) then 1.1
  else if t = 4 ∧ (i = 2 ∨ i = 4) then 1.05
  else 1

/-- The five subject grade fields. -/
def subjectFields : List Field :=
  [.programming, .multimedia, .machineLearning, .database, .softwareEngineering]

/-- The ten interest level fields. -/
def interestFields : List Field :=
  [.dataScience, .webDevelopment, .cybersecurity, .artificialIntelligence,
   .mobileAppDevelopment, .gameDevelopment, .uiuxDesign, .iot, .databaseDesign,
   .softwareValidationTesting]

/-- The combined vector `c` of the specification: `c[i]` is the subject score
plus the interest score plus `0.3` times the fuzzy bonus of course `i`. -/
def combinedScores (r : Inputs) : List ℚ :=
  (List.range 5).map (fun i =>
    (subjectScoring r).getD i 0 + (interestScoring r).getD i 0
      + 0.3 * (evaluateFuzzyRules r).getD i 0)

/-- Contribution of one `interestMap` entry to its course slot (lines 183-187),
`0` when the entry adds nothing. -/
def interestContribution (r : Inputs) (entry : InterestEntry) : ℚ :=
  if (interestTotals r 1.5 entry).2 > 0 then
    (interestTotals r 1.5 entry).1 / (interestTotals r 1.5 entry).2 / 5.0
  else 0

/-- The ranking order of the specification: `a` ranks before `b` when its score
is higher, or the scores are equal and its catalog index is lower. -/
def RankedBefore (a b : CourseScore) : Prop :=
  b.score < a.score ∨ (a.score = b.score ∧ a.index < b.index)

/-- The documented fallback of each field: `cgpa` 3, subject grades 0, interest
levels 1, `difficulty` 2, `learningStyle` 1. -/
def defaultOf : Field → ℚ
  | .cgpa => 3
  | .programming => 0
  | .multimedia => 0
  | .machineLearning => 0
  | .database => 0
  | .softwareEngineering => 0
  | .difficulty => 2
  | .learningStyle => 1
  | _ => 1

/-- The all-defaults record: `cgpa` 3, all five subject grades 0, all ten
interests 1, `difficulty` 2, `learningStyle` 1. -/
def defaultsInput : Inputs :=
  { cgpa := 3
    programming := 0
    multimedia := 0
    machineLearning := 0
    database := 0
    softwareEngineering := 0
    dataScience := 1
    webDevelopment := 1
    cybersecurity := 1
    artificialIntelligence := 1
    mobileAppDevelopment := 1
    gameDevelopment := 1
    uiuxDesign := 1
    iot := 1
    databaseDesign := 1
    softwareValidationTesting := 1
    difficulty := 2
    learningStyle := 1 }

/-- A result is complete when it names two recommended courses, carries five
scores and ranks five entries (the two confidences are always present). -/
def RecommendationResult.Complete (res : RecommendationResult) : Prop :=
  res.firstRecommendedCourse.isSome ∧ res.alternativeRecommendedCourse.isSome ∧
  res.probability_Gaming.isSome ∧ res.probability_WebDevelopment.isSome ∧
  res.probability_FuzzyLogic.isSome ∧ res.probability_DatabaseDesign.isSome ∧
  res.probability_SoftwareValidation_Verification.isSome ∧
  res.allScores.length = 5

/-- The example record of the programming-grade non-monotonicity: `cgpa` 3,
`iot` 3, `difficulty` 3, `learningStyle` 4, the other subjects 0, the other
interests 1, with programming grade `p`. -/
def programmingExample (p : ℚ) : Inputs :=
  { cgpa := 3
    programming := p
    multimedia := 0
    machineLearning := 0
    database := 0
    softwareEngineering := 0
    dataScience := 1
    webDevelopment := 1
    cybersecurity := 1
    artificialIntelligence := 1
    mobileAppDevelopment := 1
    gameDevelopment := 1
    uiuxDesign := 1
    iot := 3
    databaseDesign := 1
    softwareValidationTesting := 1
    difficulty := 3
    learningStyle := 4 }

/-- The example record of the interest non-monotonicity: `dataScience` 5,
`mobileAppDevelopment` 1 and `webDevelopment` `w`, every other field as in the
all-defaults record. -/
def interestExample (w : ℚ) : Inputs :=
  { defaultsInput with dataScience := 5, webDevelopment := w, mobileAppDevelopment := 1 }

/-! ## Array helpers -/

theorem modifyAt_five_0 (f : ℚ → ℚ) (a b c d e : ℚ) :
    modifyAt f [a, b, c, d, e] 0 = [f a, b, c, d, e] := rfl

theorem modifyAt_five_1 (f : ℚ → ℚ) (a b c d e : ℚ) :
    modifyAt f [a, b, c, d, e] 1 = [a, f b, c, d, e] := rfl

theorem modifyAt_five_2 (f : ℚ → ℚ) (a b c d e : ℚ) :
    modifyAt f [a, b, c, d, e] 2 = [a, b, f c, d, e] := rfl

theorem modifyAt_five_3 (f : ℚ → ℚ) (a b c d e : ℚ) :
    modifyAt f [a, b, c, d, e] 3 = [a, b, c, f d, e] := rfl

theorem modifyAt_five_4 (f : ℚ → ℚ) (a b c d e : ℚ) :
    modifyAt f [a, b, c, d, e] 4 = [a, b, c, d, f e] := rfl

theorem ite_five (p : Prop) [Decidable p] (a b c d e a' b' c' d' e' : ℚ) :
    (if p then [a, b, c, d, e] else [a', b', c', d', e']) =
      [if p then a else a', if p then b else b', if p then c else c',
       if p then d else d', if p then e else e'] := by
  split_ifs <;> rfl

/-! ## Subject scoring -/

theorem subjectScoring_slots (r : Inputs) :
    subjectScoring r =
      [ 0.7 * normalizedGrade r.programming + 1.0 * normalizedGrade r.multimedia,
        1.0 * normalizedGrade r.programming + 0.8 * normalizedGrade r.multimedia
          + 0.8 * normalizedGrade r.softwareEngineering,
        0.6 * normalizedGrade r.programming + 1.0 * normalizedGrade r.machineLearning,
        0.8 * normalizedGrade r.programming + 1.0 * normalizedGrade r.database,
        0.9 * normalizedGrade r.programming + 1.0 * normalizedGrade r.softwareEngineering ] := by
  simp only [subjectScoring, normalizedGrade,
    modifyAt_five_0, modifyAt_five_1, modifyAt_five_2, modifyAt_five_3, modifyAt_five_4,
    ite_five, ite_self, List.cons.injEq, and_true]
  refine ⟨?_, ?_, ?_, ?_, ?_⟩ <;> split_ifs <;> ring

/-! ## Interest scoring -/

theorem ge_threshold_ne_zero {v : ℚ} (h : v ≥ 1.5) : v ≠ 0 := by
  intro h0
  rw [h0] at h
  norm_num at h

theorem guard_iff (v : ℚ) : (v ≠ 0 ∧ v ≥ 1.5) ↔ v ≥ 1.5 :=
  ⟨fun h => h.2, fun h => ⟨ge_threshold_ne_zero h, h⟩⟩

theorem interestScoring_eq_contributions (r : Inputs) :
    interestScoring r = interestMap.map (interestContribution r) := by
  simp only [interestScoring, interestMap, List.foldl, List.map, interestContribution,
    modifyAt_five_0, modifyAt_five_1, modifyAt_five_2, modifyAt_five_3, modifyAt_five_4,
    ite_five, ite_self, List.cons.injEq, and_true]
  refine ⟨?_, ?_, ?_, ?_, ?_⟩ <;> split_ifs <;> simp

theorem interestContribution_gaming (r : Inputs) :
    interestContribution r
      { indices := [.dataScience, .webDevelopment, .mobileAppDevelopment], course := 0,
        weights := [1.0, 0.8, 0.9] } = interestSlotSpec r 0 := by
  simp only [interestContribution, interestTotals, interestSlotSpec, interestGroup, List.enum,
    List.enumFrom, List.foldl, Inputs.get, guard_iff, List.getD_cons_zero, List.getD_cons_succ]
  by_cases h1 : r.dataScience ≥ 1.5 <;> by_cases h2 : r.webDevelopment ≥ 1.5 <;>
  by_cases h3 : r.mobileAppDevelopment ≥ 1.5 <;>
  simp [h1, h2, h3, List.filter] <;> (norm_num; try ring)

theorem interestContribution_web (r : Inputs) :
    interestContribution r
      { indices := [.webDevelopment, .cybersecurity, .uiuxDesign], course := 1,
        weights := [0.9, 1.0, 0.8] } = interestSlotSpec r 1 := by
  simp only [interestContribution, interestTotals, interestSlotSpec, interestGroup, List.enum,
    List.enumFrom, List.foldl, Inputs.get, guard_iff, List.getD_cons_zero, List.getD_cons_succ]
  by_cases h1 : r.webDevelopment ≥ 1.5 <;> by_cases h2 : r.cybersecurity ≥ 1.5 <;>
  by_cases h3 : r.uiuxDesign ≥ 1.5 <;>
  simp [h1, h2, h3, List.filter] <;> (norm_num; try ring)

theorem interestContribution_fuzzy (r : Inputs) :
    interestContribution r
      { indices := [.artificialIntelligence, .uiuxDesign, .iot], course := 2,
        weights := [1.0, 0.8, 0.9] } = interestSlotSpec r 2 := by
  simp only [interestContribution, interestTotals, interestSlotSpec, interestGroup, List.enum,
    List.enumFrom, List.foldl, Inputs.get, guard_iff, List.getD_cons_zero, List.getD_cons_succ]
  by_cases h1 : r.artificialIntelligence ≥ 1.5 <;> by_cases h2 : r.uiuxDesign ≥ 1.5 <;>
  by_cases h3 : r.iot ≥ 1.5 <;>
  simp [h1, h2, h3, List.filter] <;> (norm_num; try ring)

theorem interestContribution_database (r : Inputs) :
    interestContribution r
      { indices := [.cybersecurity, .databaseDesign], course := 3,
        weights := [0.8, 1.0] } = interestSlotSpec r 3 := by
  simp only [interestContribution, interestTotals, interestSlotSpec, interestGroup, List.enum,
    List.enumFrom, List.foldl, Inputs.get, guard_iff, List.getD_cons_zero, List.getD_cons_succ]
  by_cases h1 : r.cybersecurity ≥ 1.5 <;> by_cases h2 : r.databaseDesign ≥ 1.5 <;>
  simp [h1, h2, List.filter] <;> norm_num

theorem interestContribution_validation (r : Inputs) :
    interestContribution r
      { indices := [.artificialIntelligence, .softwareValidationTesting], course := 4,
        weights := [0.7, 1.0] } = interestSlotSpec r 4 := by
  simp only [interestContribution, interestTotals, interestSlotSpec, interestGroup, List.enum,
    List.enumFrom, List.foldl, Inputs.get, guard_iff, List.getD_cons_zero, List.getD_cons_succ]
  by_cases h1 : r.artificialIntelligence ≥ 1.5 <;>
  by_cases h2 : r.softwareValidationTesting ≥ 1.5 <;>
  simp [h1, h2, List.filter] <;> norm_num

theorem interestScoring_slots (r : Inputs) :
    interestScoring r =
      [ interestSlotSpec r 0, interestSlotSpec r 1, interestSlotSpec r 2,
        interestSlotSpec r 3, interestSlotSpec r 4 ] := by
  rw [interestScoring_eq_contributions]
  simp only [interestMap, List.map, interestContribution_gaming, interestContribution_web,
    interestContribution_fuzzy, interestContribution_database,
    interestContribution_validation]

theorem normalizedGrade_below {g : ℚ} (h : g < 1.5) : normalizedGrade g = 0 := by
  simp only [normalizedGrade, ge_iff_le, not_le.mpr h, if_false]

theorem interestSlotSpec_congr (r r' : Inputs) (i : Nat)
    (h : ∀ p ∈ interestGroup i, r.get p.1 = r'.get p.1 ∨ (r.get p.1 < 1.5 ∧ r'.get p.1 < 1.5)) :
    interestSlotSpec r i = interestSlotSpec r' i := by
  have hf : (interestGroup i).filter (fun p => decide (r.get p.1 ≥ 1.5)) =
      (interestGroup i).filter (fun p => decide (r'.get p.1 ≥ 1.5)) := by
    apply List.filter_congr
    intro p hp
    rcases h p hp with h1 | ⟨h1, h2⟩
    · rw [h1]
    · simp [not_le.mpr h1, not_le.mpr h2]
  have hm : ((interestGroup i).filter (fun p => decide (r.get p.1 ≥ 1.5))).map
        (fun p => r.get p.1 * p.2) =
      ((interestGroup i).filter (fun p => decide (r.get p.1 ≥ 1.5))).map
        (fun p => r'.get p.1 * p.2) := by
    apply List.map_congr_left
    intro p hp
    rw [List.mem_filter] at hp
    rcases h p hp.1 with h1 | ⟨h1, _⟩
    · rw [h1]
    · have := hp.2
      simp [not_le.mpr h1] at this
  simp only [interestSlotSpec]
  rw [← hf, hm]

theorem get_set_of_ne (r : Inputs) (f g : Field) (v : ℚ) (h : g ≠ f) :
    (r.set f v).get g = r.get g := by
  cases f <;> cases g <;> first | rfl | exact absurd rfl h

theorem get_set_self (r : Inputs) (f : Field) (v : ℚ) : (r.set f v).get f = v := by
  cases f <;> rfl

/-- C10: a subject field (resp. interest field) whose value is below `1.5`
contributes exactly 0: `subjectScoring` (resp. `interestScoring`) returns the
same vector when that field is replaced by `0` or any other value below `1.5`. -/
theorem threshold_no_contribution (r : Inputs) (f : Field) (v : ℚ)
    (hf : r.get f < 1.5) (hv : v < 1.5) :
    (f ∈ subjectFields → subjectScoring (r.set f v) = subjectScoring r) ∧
    (f ∈ interestFields → interestScoring (r.set f v) = interestScoring r) := by
  constructor
  · intro hm
    simp only [subjectFields, List.mem_cons, List.mem_singleton, List.not_mem_nil, or_false] at hm
    rw [subjectScoring_slots, subjectScoring_slots]
    rcases hm with h | h | h | h | h <;> subst h <;>
      simp only [Inputs.set, Inputs.get] at hf ⊢ <;>
      rw [normalizedGrade_below hf, normalizedGrade_below hv]
  · intro _
    rw [interestScoring_slots, interestScoring_slots]
    have key : ∀ i, interestSlotSpec (r.set f v) i = interestSlotSpec r i := by
      intro i
      apply interestSlotSpec_congr
      intro p _
      by_cases hp : p.1 = f
      · right
        rw [hp, get_set_self]
        exact ⟨hv, hf⟩
      · left
        exact get_set_of_ne r f p.1 v hp
    simp only [key]

theorem threshold_no_contribution_witness :
    (sampleInput.set .multimedia 1).get .multimedia < 1.5 ∧ (0 : ℚ) < 1.5 ∧
    ((Field.multimedia ∈ subjectFields →
        subjectScoring ((sampleInput.set .multimedia 1).set .multimedia 0) =
          subjectScoring (sampleInput.set .multimedia 1)) ∧
      (Field.multimedia ∈ interestFields →
        interestScoring ((sampleInput.set .multimedia 1).set .multimedia 0) =
          interestScoring (sampleInput.set .multimedia 1))) :=
  ⟨by norm_num [Inputs.get, Inputs.set], by norm_num,
    threshold_no_contribution (sampleInput.set .multimedia 1) .multimedia 0
      (by norm_num [Inputs.get, Inputs.set]) (by norm_num)⟩

/-! ## Learning-preference adjustment -/

theorem difficulty_cases (d : ℚ) : d = 1 ∨ d = 2 ∨ d = 3 ∨ (d ≠ 1 ∧ d ≠ 2 ∧ d ≠ 3) := by
  by_cases h1 : d = 1
  · exact Or.inl h1
  by_cases h2 : d = 2
  · exact Or.inr (Or.inl h2)
  by_cases h3 : d = 3
  · exact Or.inr (Or.inr (Or.inl h3))
  exact Or.inr (Or.inr (Or.inr ⟨h1, h2, h3⟩))

theorem style_cases (t : ℚ) :
    t = 1 ∨ t = 2 ∨ t = 3 ∨ t = 4 ∨ (t ≠ 1 ∧ t ≠ 2 ∧ t ≠ 3 ∧ t ≠ 4) := by
  by_cases h1 : t = 1
  · exact Or.inl h1
  by_cases h2 : t = 2
  · exact Or.inr (Or.inl h2)
  by_cases h3 : t = 3
  · exact Or.inr (Or.inr (Or.inl h3))
  by_cases h4 : t = 4
  · exact Or.inr (Or.inr (Or.inr (Or.inl h4)))
  exact Or.inr (Or.inr (Or.inr (Or.inr ⟨h1, h2, h3, h4⟩)))

theorem difficulty_switch (a b c e f d : ℚ) :
    (if d = 1 then [a, b * 1.2, c, e * 1.2, f]
      else if d = 2 then [a * 1.1, b, c, e, f * 1.1]
      else if d = 3 then [a, b, c * 1.2, e, f]
      else [a, b, c, e, f]) =
    [ a * difficultyFactor d 0, b * difficultyFactor d 1, c * difficultyFactor d 2,
      e * difficultyFactor d 3, f * difficultyFactor d 4 ] := by
  rcases difficulty_cases d with rfl | rfl | rfl | ⟨d1, d2, d3⟩
  · norm_num [difficultyFactor]
  · norm_num [difficultyFactor]
  · norm_num [difficultyFactor]
  · simp [difficultyFactor, d1, d2, d3]

theorem style_switch (a b c e f t : ℚ) :
    (if t = 1 then [a * 1.1, b, c * 1.1, e * 1.1, f]
      else if t = 2 then [a * 1.15, b * 1.15, c, e * 1.15, f]
      else if t = 3 then [a, b * 1.1, c, e, f * 1.1]
      else if t = 4 then [a, b, c * 1.05, e, f * 1.05]
      else [a, b, c, e, f]) =
    [ a * styleFactor t 0, b * styleFactor t 1, c * styleFactor t 2,
      e * styleFactor t 3, f * styleFactor t 4 ] := by
  rcases style_cases t with rfl | rfl | rfl | rfl | ⟨t1, t2, t3, t4⟩
  · norm_num [styleFactor]
  · norm_num [styleFactor]
  · norm_num [styleFactor]
  · norm_num [styleFactor]
  · simp [styleFactor, t1, t2, t3, t4]

theorem adjustByLearningPreferences_slots (s0 s1 s2 s3 s4 d t : ℚ) :
    adjustByLearningPreferences [s0, s1, s2, s3, s4] d t =
      [ s0 * difficultyFactor d 0 * styleFactor t 0,
        s1 * difficultyFactor d 1 * styleFactor t 1,
        s2 * difficultyFactor d 2 * styleFactor t 2,
        s3 * difficultyFactor d 3 * styleFactor t 3,
        s4 * difficultyFactor d 4 * styleFactor t 4 ] := by
  simp only [adjustByLearningPreferences, modifyAt_five_0, modifyAt_five_1, modifyAt_five_2,
    modifyAt_five_3, modifyAt_five_4]
  rw [difficulty_switch]
  simp only [modifyAt_five_0, modifyAt_five_1, modifyAt_five_2,
    modifyAt_five_3, modifyAt_five_4]
  rw [style_switch]

/-! ## The final score vector -/

theorem evaluateFuzzyRules_five (r : Inputs) :
    ∃ a b c d e, evaluateFuzzyRules r = [a, b, c, d, e] := by
  simp only [evaluateFuzzyRules, modifyAt_five_0, modifyAt_five_1, modifyAt_five_2,
    modifyAt_five_3, modifyAt_five_4]
  exact ⟨_, _, _, _, _, rfl⟩

theorem mapAddIdx_five (a b c d e : ℚ) (g : Nat → ℚ) :
    mapAddIdx [a, b, c, d, e] g = [a + g 0, b + g 1, c + g 2, d + g 3, e + g 4] := rfl

theorem finalScores_eq_map (r : Inputs) :
    finalScores r =
      (adjustByLearningPreferences (combinedScores r) r.difficulty r.learningStyle).map
        (fun score => max score 0.1) := by
  obtain ⟨a, b, c, d, e, hf⟩ := evaluateFuzzyRules_five r
  simp only [finalScores, combinedScores, subjectScoring_slots r, interestScoring_slots r,
    hf, mapAddIdx_five]
  have h5 : List.range 5 = [0, 1, 2, 3, 4] := by decide
  simp only [h5, List.map, List.getD_cons_zero, List.getD_cons_succ]
  have h3 : ∀ x y : ℚ, x + y * 0.3 = x + 0.3 * y := fun x y => by ring
  simp only [h3]

theorem finalScores_five (r : Inputs) :
    ∃ a b c d e,
      adjustByLearningPreferences (combinedScores r) r.difficulty r.learningStyle
        = [a, b, c, d, e] ∧
      finalScores r = [max a 0.1, max b 0.1, max c 0.1, max d 0.1, max e 0.1] := by
  have h5 : List.range 5 = [0, 1, 2, 3, 4] := by decide
  have hc : ∃ a b c d e, combinedScores r = [a, b, c, d, e] := by
    simp only [combinedScores, h5, List.map]
    exact ⟨_, _, _, _, _, rfl⟩
  obtain ⟨a, b, c, d, e, hc⟩ := hc
  have ha := adjustByLearningPreferences_slots a b c d e r.difficulty r.learningStyle
  rw [← hc] at ha
  exact ⟨_, _, _, _, _, ha, by rw [finalScores_eq_map, ha]; rfl⟩
/-! ## Ranking -/

theorem length_sortInsert {α : Type} (cmp : α → α → ℚ) (a : α) (l : List α) :
    (sortInsert cmp a l).length = l.length + 1 := by
  induction l with
  | nil => rfl
  | cons b l ih =>
    simp only [sortInsert]
    split_ifs
    · rfl
    · simp only [List.length_cons, ih]

theorem length_arraySort {α : Type} (cmp : α → α → ℚ) (l : List α) :
    (arraySort cmp l).length = l.length := by
  induction l with
  | nil => rfl
  | cons a l ih => simp only [arraySort, length_sortInsert, ih, List.length_cons]

theorem perm_sortInsert {α : Type} (cmp : α → α → ℚ) (a : α) (l : List α) :
    (sortInsert cmp a l).Perm (a :: l) := by
  induction l with
  | nil => exact List.Perm.refl _
  | cons b l ih =>
    simp only [sortInsert]
    split_ifs
    · exact List.Perm.refl _
    · exact (List.Perm.cons b ih).trans (List.Perm.swap a b l)

theorem perm_arraySort {α : Type} (cmp : α → α → ℚ) (l : List α) :
    (arraySort cmp l).Perm l := by
  induction l with
  | nil => exact List.Perm.refl _
  | cons a l ih =>
    simp only [arraySort]
    exact (perm_sortInsert cmp a _).trans (List.Perm.cons a ih)

theorem rankedBefore_of_le {a b : CourseScore} (hs : b.score ≤ a.score)
    (hi : a.index < b.index) : RankedBefore a b := by
  rcases lt_or_eq_of_le hs with h | h
  · exact Or.inl h
  · exact Or.inr ⟨h.symm, hi⟩

theorem RankedBefore.score_le {a b : CourseScore} (h : RankedBefore a b) :
    b.score ≤ a.score := by
  rcases h with h | ⟨h, _⟩
  · exact le_of_lt h
  · exact le_of_eq h.symm

theorem pairwise_sortInsert (a : CourseScore) (l : List CourseScore)
    (hl : l.Pairwise RankedBefore) (ha : ∀ b ∈ l, a.index < b.index) :
    (sortInsert scoreComparator a l).Pairwise RankedBefore := by
  induction l with
  | nil => simp [sortInsert]
  | cons b l ih =>
    rw [List.pairwise_cons] at hl
    simp only [sortInsert]
    split_ifs with hc
    · have hba : b.score ≤ a.score := by
        simp only [scoreComparator] at hc
        linarith
      refine List.Pairwise.cons ?_ (List.Pairwise.cons hl.1 hl.2)
      intro x hx
      rcases List.mem_cons.mp hx with rfl | hx
      · exact rankedBefore_of_le hba (ha _ (List.mem_cons_self _ _))
      · exact rankedBefore_of_le (le_trans (hl.1 x hx).score_le hba)
          (ha x (List.mem_cons_of_mem _ hx))
    · have hab : a.score < b.score := by
        simp only [scoreComparator] at hc
        linarith
      refine List.Pairwise.cons ?_ (ih hl.2 (fun x hx => ha x (List.mem_cons_of_mem _ hx)))
      intro x hx
      rcases List.mem_cons.mp ((perm_sortInsert scoreComparator a l).mem_iff.mp hx) with rfl | hx
      · exact Or.inl hab
      · exact hl.1 x hx

theorem pairwise_arraySort (l : List CourseScore)
    (h : l.Pairwise (fun a b => a.index < b.index)) :
    (arraySort scoreComparator l).Pairwise RankedBefore := by
  induction l with
  | nil => simp [arraySort]
  | cons a l ih =>
    rw [List.pairwise_cons] at h
    simp only [arraySort]
    refine pairwise_sortInsert a _ (ih h.2) ?_
    intro b hb
    exact h.1 b ((perm_arraySort scoreComparator l).mem_iff.mp hb)

theorem courseScoresOf_five (a b c d e : ℚ) :
    courseScoresOf [a, b, c, d, e] =
      [ { course := some "Gaming", score := a, confidence := a, index := 0 },
        { course := some "Web Development", score := b, confidence := b, index := 1 },
        { course := some "Fuzzy Logic", score := c, confidence := c, index := 2 },
        { course := some "Database Design", score := d, confidence := d, index := 3 },
        { course := some "Software Validation & Verification", score := e, confidence := e,
          index := 4 } ] := rfl

theorem recommend_eq (r : Inputs) :
    ∃ first second rest,
      arraySort scoreComparator (courseScoresOf (finalScores r)) = first :: second :: rest ∧
      recommend r = some
        { firstRecommendedCourse := first.course
          alternativeRecommendedCourse := second.course
          firstConfidence := first.confidence
          secondConfidence := second.confidence
          probability_Gaming := (finalScores r)[0]?
          probability_WebDevelopment := (finalScores r)[1]?
          probability_FuzzyLogic := (finalScores r)[2]?
          probability_DatabaseDesign := (finalScores r)[3]?
          probability_SoftwareValidation_Verification := (finalScores r)[4]?
          allScores := first :: second :: rest } := by
  obtain ⟨a, b, c, d, e, -, hf⟩ := finalScores_five r
  have hlen : (arraySort scoreComparator (courseScoresOf (finalScores r))).length = 5 := by
    rw [length_arraySort, hf, courseScoresOf_five]
    rfl
  match hs : arraySort scoreComparator (courseScoresOf (finalScores r)), hlen with
  | first :: second :: rest, _ =>
    refine ⟨first, second, rest, rfl, ?_⟩
    simp only [recommend, hs]

/-! ## Claims about the scoring stages -/

/-- C8: `subjectScoring` returns exactly the weighted sums of the normalised
grades `n(g)` that the specification tabulates, slot by slot. -/
theorem subjectScoring_formula (r : Inputs) :
    subjectScoring r =
      [ 0.7 * normalizedGrade r.programming + 1.0 * normalizedGrade r.multimedia,
        1.0 * normalizedGrade r.programming + 0.8 * normalizedGrade r.multimedia
          + 0.8 * normalizedGrade r.softwareEngineering,
        0.6 * normalizedGrade r.programming + 1.0 * normalizedGrade r.machineLearning,
        0.8 * normalizedGrade r.programming + 1.0 * normalizedGrade r.database,
        0.9 * normalizedGrade r.programming + 1.0 * normalizedGrade r.softwareEngineering ] :=
  subjectScoring_slots r

/-- C9: every slot of `interestScoring` is the value the specification words for
the interest group of that course: `0` when no field of the group reaches `1.5`,
otherwise the weighted sum of the fields reaching `1.5`, averaged over their
number and divided by 5. -/
theorem interestScoring_formula (r : Inputs) :
    interestScoring r =
      [ interestSlotSpec r 0, interestSlotSpec r 1, interestSlotSpec r 2,
        interestSlotSpec r 3, interestSlotSpec r 4 ] :=
  interestScoring_slots r

/-- C7: on a five-slot score vector, `adjustByLearningPreferences` multiplies
slot `i` by the difficulty multiplier `D(d, i)` and then by the style multiplier
`S(t, i)` of the specification, both equal to `1` wherever the specification
lists no scaling. -/
theorem adjustByLearningPreferences_formula (s0 s1 s2 s3 s4 d t : ℚ) :
    adjustByLearningPreferences [s0, s1, s2, s3, s4] d t =
      [ s0 * difficultyFactor d 0 * styleFactor t 0,
        s1 * difficultyFactor d 1 * styleFactor t 1,
        s2 * difficultyFactor d 2 * styleFactor t 2,
        s3 * difficultyFactor d 3 * styleFactor t 3,
        s4 * difficultyFactor d 4 * styleFactor t 4 ] :=
  adjustByLearningPreferences_slots s0 s1 s2 s3 s4 d t

/-! ## Claims about `recommend` -/

/-- C1: for every input record `recommend` returns a result whose five score
fields are the five entries of the final score vector, and each of them is at
least `0.1`, hence non-negative. -/
theorem recommend_scores_floor (r : Inputs) :
    ∃ res g w f d s,
      recommend r = some res ∧
      finalScores r = [g, w, f, d, s] ∧
      res.probability_Gaming = some g ∧
      res.probability_WebDevelopment = some w ∧
      res.probability_FuzzyLogic = some f ∧
      res.probability_DatabaseDesign = some d ∧
      res.probability_SoftwareValidation_Verification = some s ∧
      (0.1 ≤ g ∧ 0.1 ≤ w ∧ 0.1 ≤ f ∧ 0.1 ≤ d ∧ 0.1 ≤ s) ∧
      (0 ≤ g ∧ 0 ≤ w ∧ 0 ≤ f ∧ 0 ≤ d ∧ 0 ≤ s) := by
  obtain ⟨first, second, rest, -, hrec⟩ := recommend_eq r
  obtain ⟨a, b, c, d, e, -, hf⟩ := finalScores_five r
  have hpos : ∀ x : ℚ, 0 ≤ max x 0.1 := fun x =>
    le_trans (by norm_num) (le_max_right x 0.1)
  refine ⟨_, _, _, _, _, _, hrec, hf, ?_, ?_, ?_, ?_, ?_,
    ⟨le_max_right _ _, le_max_right _ _, le_max_right _ _, le_max_right _ _,
      le_max_right _ _⟩,
    ⟨hpos _, hpos _, hpos _, hpos _, hpos _⟩⟩ <;> simp only [hf] <;> rfl

/-- C6: for every input record the final score of course `i` returned by
`recommend` is `max(0.1, a[i])` where `a` is `adjustByLearningPreferences`
applied to the combined vector `c[i] = subject[i] + interest[i] + 0.3 * fuzzy[i]`. -/
theorem recommend_scores_pipeline (r : Inputs) :
    ∃ res,
      recommend r = some res ∧
      [ res.probability_Gaming, res.probability_WebDevelopment, res.probability_FuzzyLogic,
        res.probability_DatabaseDesign, res.probability_SoftwareValidation_Verification ] =
      (List.range 5).map (fun i =>
        some (max 0.1
          ((adjustByLearningPreferences (combinedScores r) r.difficulty
            r.learningStyle).getD i 0))) := by
  obtain ⟨first, second, rest, -, hrec⟩ := recommend_eq r
  obtain ⟨a, b, c, d, e, ha, hf⟩ := finalScores_five r
  have h5 : List.range 5 = [0, 1, 2, 3, 4] := by decide
  refine ⟨_, hrec, ?_⟩
  simp only [hf, ha, h5, List.map, List.getD_cons_zero, List.getD_cons_succ, max_comm (0.1 : ℚ)]
  rfl
theorem courseScoresOf_final (r : Inputs) :
    ∃ g w f d s,
      finalScores r = [g, w, f, d, s] ∧
      courseScoresOf (finalScores r) =
        [ { course := some "Gaming", score := g, confidence := g, index := 0 },
          { course := some "Web Development", score := w, confidence := w, index := 1 },
          { course := some "Fuzzy Logic", score := f, confidence := f, index := 2 },
          { course := some "Database Design", score := d, confidence := d, index := 3 },
          { course := some "Software Validation & Verification", score := s, confidence := s,
            index := 4 } ] := by
  obtain ⟨a, b, c, d, e, -, hf⟩ := finalScores_five r
  exact ⟨_, _, _, _, _, hf, by rw [hf, courseScoresOf_five]⟩

theorem pairwise_index_courseScoresOf (r : Inputs) :
    (courseScoresOf (finalScores r)).Pairwise (fun a b => a.index < b.index) := by
  obtain ⟨g, w, f, d, s, -, hc⟩ := courseScoresOf_final r
  rw [hc]
  simp

theorem mem_courseScoresOf (r : Inputs) (e : CourseScore)
    (he : e ∈ courseScoresOf (finalScores r)) :
    e.index < 5 ∧ e.course = courseNames[e.index]? ∧
      some e.score = (finalScores r)[e.index]? ∧ e.confidence = e.score := by
  obtain ⟨g, w, f, d, s, hf, hc⟩ := courseScoresOf_final r
  rw [hc] at he
  rw [hf]
  simp only [List.mem_cons, List.mem_singleton, List.not_mem_nil, or_false] at he
  rcases he with rfl | rfl | rfl | rfl | rfl <;> exact ⟨by simp, rfl, rfl, rfl⟩

/-- C2: for every input record the `allScores` list returned by `recommend` is a
permutation of the five catalog courses, each entry carrying the name and the
final score of its own catalog index, in non-increasing order of score, and of
two entries with equal scores the one with the lower catalog index comes first. -/
theorem recommend_allScores_ranked (r : Inputs) :
    ∃ res,
      recommend r = some res ∧
      res.allScores.Perm (courseScoresOf (finalScores r)) ∧
      (res.allScores.map (fun e => e.course)).Perm (courseNames.map some) ∧
      (res.allScores.map (fun e => e.index)).Perm [0, 1, 2, 3, 4] ∧
      (∀ e ∈ res.allScores,
        e.course = courseNames[e.index]? ∧ some e.score = (finalScores r)[e.index]?) ∧
      res.allScores.Pairwise (fun a b => b.score ≤ a.score) ∧
      res.allScores.Pairwise (fun a b => a.score = b.score → a.index < b.index) := by
  obtain ⟨first, second, rest, hs, hrec⟩ := recommend_eq r
  have hperm := perm_arraySort scoreComparator (courseScoresOf (finalScores r))
  have hpw := pairwise_arraySort _ (pairwise_index_courseScoresOf r)
  rw [hs] at hperm hpw
  obtain ⟨g, w, f, d, s, -, hc⟩ := courseScoresOf_final r
  refine ⟨_, hrec, hperm, ?_, ?_, ?_, ?_, ?_⟩
  · refine (hperm.map _).trans ?_
    rw [hc]
    exact List.Perm.refl _
  · refine (hperm.map _).trans ?_
    rw [hc]
    exact List.Perm.refl _
  · intro e he
    have h := mem_courseScoresOf r e (hperm.mem_iff.mp he)
    exact ⟨h.2.1, h.2.2.1⟩
  · exact hpw.imp (fun h => h.score_le)
  · refine hpw.imp ?_
    intro a b h heq
    rcases h with h | ⟨_, h⟩
    · exact absurd heq (ne_of_gt h)
    · exact h
theorem exists_mem_courseScoresOf (r : Inputs) (k : Nat) (x : ℚ)
    (h : (finalScores r)[k]? = some x) :
    ∃ e ∈ courseScoresOf (finalScores r), e.index = k ∧ e.score = x := by
  obtain ⟨g, w, f, d, s, hf, hc⟩ := courseScoresOf_final r
  rw [hf] at h
  rw [hc]
  match k, h with
  | 0, h => exact ⟨⟨some "Gaming", g, g, 0⟩, by simp, rfl, by simpa using h⟩
  | 1, h => exact ⟨⟨some "Web Development", w, w, 1⟩, by simp, rfl, by simpa using h⟩
  | 2, h => exact ⟨⟨some "Fuzzy Logic", f, f, 2⟩, by simp, rfl, by simpa using h⟩
  | 3, h => exact ⟨⟨some "Database Design", d, d, 3⟩, by simp, rfl, by simpa using h⟩
  | 4, h =>
    exact ⟨⟨some "Software Validation & Verification", s, s, 4⟩, by simp, rfl, by simpa using h⟩
  | n + 5, h => simp at h

theorem courseNames_injective (i j : Nat) (hi : i < 5) (hj : j < 5) (hij : i ≠ j) :
    courseNames[i]? ≠ courseNames[j]? := by
  interval_cases i <;> interval_cases j <;> simp [courseNames] at hij ⊢

/-- C3: the two recommended courses are two distinct catalog courses, the two
confidences are the final scores of exactly those courses, the first confidence
is the maximum final score and is attained at the lowest index with that score,
and the second confidence is at most the first and at least the final score of
each of the three other courses. -/
theorem recommend_top_two (r : Inputs) :
    ∃ (res : RecommendationResult) (i j : Nat),
      recommend r = some res ∧ i < 5 ∧ j < 5 ∧ i ≠ j ∧
      res.firstRecommendedCourse = courseNames[i]? ∧
      res.alternativeRecommendedCourse = courseNames[j]? ∧
      res.firstRecommendedCourse ≠ res.alternativeRecommendedCourse ∧
      some res.firstConfidence = (finalScores r)[i]? ∧
      some res.secondConfidence = (finalScores r)[j]? ∧
      (∀ (k : Nat) (x : ℚ), (finalScores r)[k]? = some x → x ≤ res.firstConfidence) ∧
      (∀ (k : Nat) (x : ℚ), k < i → (finalScores r)[k]? = some x → x < res.firstConfidence) ∧
      res.secondConfidence ≤ res.firstConfidence ∧
      (∀ (k : Nat) (x : ℚ), k ≠ i → k ≠ j → (finalScores r)[k]? = some x → x ≤ res.secondConfidence) := by
  obtain ⟨first, second, rest, hs, hrec⟩ := recommend_eq r
  have hperm := perm_arraySort scoreComparator (courseScoresOf (finalScores r))
  have hpw := pairwise_arraySort _ (pairwise_index_courseScoresOf r)
  rw [hs] at hperm hpw
  have h1 := mem_courseScoresOf r first (hperm.mem_iff.mp (List.mem_cons_self _ _))
  have h2 := mem_courseScoresOf r second
    (hperm.mem_iff.mp (List.mem_cons_of_mem _ (List.mem_cons_self _ _)))
  rw [List.pairwise_cons] at hpw
  obtain ⟨hfirst, hpw2⟩ := hpw
  rw [List.pairwise_cons] at hpw2
  obtain ⟨hsecond, -⟩ := hpw2
  have h12 : RankedBefore first second := hfirst second (List.mem_cons_self _ _)
  have hne : first.index ≠ second.index := by
    intro heq
    rcases h12 with h | ⟨_, h⟩
    · have e1 := h1.2.2.1
      have e2 := h2.2.2.1
      rw [heq] at e1
      rw [← e2] at e1
      have e3 : first.score = second.score := Option.some.inj e1
      exact absurd e3 (ne_of_gt h)
    · exact absurd heq (ne_of_lt h)
  refine ⟨_, first.index, second.index, hrec, h1.1, h2.1, hne, h1.2.1, h2.2.1, ?_, ?_, ?_,
    ?_, ?_, ?_, ?_⟩
  · show first.course ≠ second.course
    rw [h1.2.1, h2.2.1]
    exact courseNames_injective _ _ h1.1 h2.1 hne
  · show some first.confidence = _
    rw [h1.2.2.2]
    exact h1.2.2.1
  · show some second.confidence = _
    rw [h2.2.2.2]
    exact h2.2.2.1
  · intro k x hk
    show x ≤ first.confidence
    rw [h1.2.2.2]
    obtain ⟨e, he, -, hx⟩ := exists_mem_courseScoresOf r k x hk
    rcases List.mem_cons.mp (hperm.mem_iff.mpr he) with rfl | he'
    · exact le_of_eq hx.symm
    · exact hx ▸ (hfirst e he').score_le
  · intro k x hki hk
    show x < first.confidence
    rw [h1.2.2.2]
    obtain ⟨e, he, hidx, hx⟩ := exists_mem_courseScoresOf r k x hk
    rcases List.mem_cons.mp (hperm.mem_iff.mpr he) with rfl | he'
    · exact absurd hidx (ne_of_gt hki)
    · rcases hfirst e he' with h | ⟨_, h⟩
      · exact hx ▸ h
      · rw [hidx] at h
        exact absurd h (not_lt_of_gt hki)
  · show second.confidence ≤ first.confidence
    rw [h1.2.2.2, h2.2.2.2]
    exact h12.score_le
  · intro k x hki hkj hk
    show x ≤ second.confidence
    rw [h2.2.2.2]
    obtain ⟨e, he, hidx, hx⟩ := exists_mem_courseScoresOf r k x hk
    rcases List.mem_cons.mp (hperm.mem_iff.mpr he) with rfl | he'
    · exact absurd hidx (Ne.symm hki)
    · rcases List.mem_cons.mp he' with rfl | he''
      · exact absurd hidx (Ne.symm hkj)
      · exact hx ▸ (hsecond e he'').score_le

/-! ## The canonical regression record -/

theorem subjectScoring_sample :
    subjectScoring sampleInput = [39 / 25, 56 / 25, 32 / 25, 36 / 25, 38 / 25] := by
  rw [subjectScoring_slots]
  norm_num [normalizedGrade, sampleInput]

theorem interestScoring_sample :
    interestScoring sampleInput = [127 / 150, 59 / 75, 39 / 50, 7 / 10, 39 / 50] := by
  rw [interestScoring_slots]
  norm_num [interestSlotSpec, interestGroup, Inputs.get, sampleInput, List.filter]

theorem evaluateFuzzyRules_sample : evaluateFuzzyRules sampleInput = [0, 0, 0, 0, 0] := by
  norm_num [evaluateFuzzyRules, getCGPAMembership, getSubjectMembership,
    getInterestMembership, getDifficultyMembership, getLearningStyleMembership, trimf,
    sampleInput, modifyAt_five_0, modifyAt_five_1, modifyAt_five_2, modifyAt_five_3,
    modifyAt_five_4]

theorem finalScores_sample :
    finalScores sampleInput = [3971 / 1500, 2497 / 750, 103 / 50, 107 / 50, 2783 / 1000] := by
  have hc : combinedScores sampleInput = [361 / 150, 227 / 75, 103 / 50, 107 / 50, 23 / 10] := by
    have h5 : List.range 5 = [0, 1, 2, 3, 4] := by decide
    simp only [combinedScores, subjectScoring_sample, interestScoring_sample,
      evaluateFuzzyRules_sample, h5, List.map, List.getD_cons_zero, List.getD_cons_succ]
    norm_num
  rw [finalScores_eq_map, hc, adjustByLearningPreferences_slots]
  norm_num [difficultyFactor, styleFactor, sampleInput]

theorem arraySort_sample :
    arraySort scoreComparator (courseScoresOf (finalScores sampleInput)) =
      [ { course := some "Web Development", score := 2497 / 750, confidence := 2497 / 750,
          index := 1 },
        { course := some "Software Validation & Verification", score := 2783 / 1000,
          confidence := 2783 / 1000, index := 4 },
        { course := some "Gaming", score := 3971 / 1500, confidence := 3971 / 1500, index := 0 },
        { course := some "Database Design", score := 107 / 50, confidence := 107 / 50,
          index := 3 },
        { course := some "Fuzzy Logic", score := 103 / 50, confidence := 103 / 50,
          index := 2 } ] := by
  rw [finalScores_sample, courseScoresOf_five]
  norm_num [arraySort, sortInsert, scoreComparator]

/-- C4: on the canonical regression record `recommend` returns
"Web Development" as first and "Software Validation & Verification" as
alternative recommended course. -/
theorem recommend_sample_courses :
    ∃ res,
      recommend sampleInput = some res ∧
      res.firstRecommendedCourse = some "Web Development" ∧
      res.alternativeRecommendedCourse = some "Software Validation & Verification" := by
  obtain ⟨first, second, rest, hs, hrec⟩ := recommend_eq sampleInput
  rw [arraySort_sample] at hs
  simp only [List.cons.injEq] at hs
  obtain ⟨h1, h2, -⟩ := hs
  refine ⟨_, hrec, ?_, ?_⟩
  · show first.course = _
    rw [← h1]
  · show second.course = _
    rw [← h2]

/-- C5 (evaluation of the code): on the canonical regression record the final
scores are 3971/1500 (Gaming), 2497/750 (Web Development), 103/50 (Fuzzy Logic),
107/50 (Database Design) and 2783/1000 (Software Validation & Verification).
Four of them are within 0.01 of the expected values of the regression test, but
the Software Validation & Verification score is farther than 0.01 (indeed
farther than 0.36) from its expected value 3.146. -/
theorem recommend_sample_scores :
    ∃ res,
      recommend sampleInput = some res ∧
      res.probability_Gaming = some (3971 / 1500) ∧
      res.probability_WebDevelopment = some (2497 / 750) ∧
      res.probability_FuzzyLogic = some (103 / 50) ∧
      res.probability_DatabaseDesign = some (107 / 50) ∧
      res.probability_SoftwareValidation_Verification = some (2783 / 1000) ∧
      |(2497 / 750 : ℚ) - 3.329333333| ≤ 0.01 ∧
      |(3971 / 1500 : ℚ) - 2.647333333| ≤ 0.01 ∧
      |(107 / 50 : ℚ) - 2.14| ≤ 0.01 ∧
      |(103 / 50 : ℚ) - 2.06| ≤ 0.01 ∧
      ¬ |(2783 / 1000 : ℚ) - 3.146| ≤ 0.01 ∧
      0.36 < |(2783 / 1000 : ℚ) - 3.146| := by
  obtain ⟨first, second, rest, -, hrec⟩ := recommend_eq sampleInput
  refine ⟨_, hrec, ?_, ?_, ?_, ?_, ?_, ?_, ?_, ?_, ?_, ?_, ?_⟩
  · simp only [finalScores_sample]; rfl
  · simp only [finalScores_sample]; rfl
  · simp only [finalScores_sample]; rfl
  · simp only [finalScores_sample]; rfl
  · simp only [finalScores_sample]; rfl
  · rw [abs_le]; constructor <;> norm_num
  · rw [abs_le]; constructor <;> norm_num
  · rw [abs_le]; constructor <;> norm_num
  · rw [abs_le]; constructor <;> norm_num
  · rw [abs_le]; norm_num
  · rw [lt_abs]; right; norm_num

/-! ## Triangular membership -/

theorem trimf_eq_zero_of_outside (x a b c : ℚ) (h : x ≤ a ∨ x ≥ c) : trimf x (a, b, c) = 0 := by
  simp only [trimf, if_pos h]

theorem trimf_rising (x a b c : ℚ) (hab : a < b) (hbc : b < c) (hax : a ≤ x) (hxb : x ≤ b) :
    trimf x (a, b, c) = (x - a) / (b - a) := by
  simp only [trimf]
  split_ifs with h1 h2 h3
  · rcases h1 with h1 | h1
    · have : x = a := le_antisymm h1 hax
      rw [this, sub_self, zero_div]
    · exact absurd (lt_of_le_of_lt hxb hbc) (not_lt.mpr h1)
  · rw [h2, div_self (sub_ne_zero.mpr (ne_of_gt hab))]
  · rfl
  · exact absurd (lt_of_le_of_ne hxb h2) h3

theorem trimf_falling (x a b c : ℚ) (hab : a < b) (hbc : b < c) (hbx : b ≤ x) (hxc : x ≤ c) :
    trimf x (a, b, c) = (c - x) / (c - b) := by
  simp only [trimf]
  split_ifs with h1 h2 h3
  · rcases h1 with h1 | h1
    · exact absurd (lt_of_lt_of_le hab hbx) (not_lt.mpr h1)
    · have : x = c := le_antisymm hxc h1
      rw [this, sub_self, zero_div]
  · rw [h2, div_self (sub_ne_zero.mpr (ne_of_gt hbc))]
  · exact absurd h3 (not_lt.mpr hbx)
  · rfl

theorem trimf_nonneg (x : ℚ) (p : ℚ × ℚ × ℚ) : 0 ≤ trimf x p := by
  obtain ⟨a, b, c⟩ := p
  simp only [trimf]
  split_ifs with h1 h2 h3
  · exact le_refl 0
  · exact zero_le_one
  · push_neg at h1
    exact div_nonneg (by linarith) (by linarith)
  · push_neg at h1 h3
    exact div_nonneg (by linarith) (by linarith)

theorem trimf_le_one (x : ℚ) (p : ℚ × ℚ × ℚ) : trimf x p ≤ 1 := by
  obtain ⟨a, b, c⟩ := p
  simp only [trimf]
  split_ifs with h1 h2 h3
  · exact zero_le_one
  · exact le_refl 1
  · push_neg at h1
    rw [div_le_one (by linarith)]
    linarith
  · push_neg at h1 h3
    have hb : b < x := lt_of_le_of_ne h3 (Ne.symm h2)
    rw [div_le_one (by linarith)]
    linarith


/-! ## Monotonicity of the subject stage -/

theorem normalizedGrade_mono {g g' : ℚ} (hg : 1.5 ≤ g) (hgg : g ≤ g') :
    normalizedGrade g ≤ normalizedGrade g' := by
  have hg' : (1.5 : ℚ) ≤ g' := le_trans hg hgg
  simp only [normalizedGrade, ge_iff_le, if_pos hg, if_pos hg']
  linarith

theorem recommend_complete (r : Inputs) :
    ∃ res, recommend r = some res ∧ res.Complete := by
  obtain ⟨first, second, rest, hs, hrec⟩ := recommend_eq r
  obtain ⟨a, b, c, d, e, -, hf⟩ := finalScores_five r
  have hperm := perm_arraySort scoreComparator (courseScoresOf (finalScores r))
  have hlen := length_arraySort scoreComparator (courseScoresOf (finalScores r))
  rw [hs] at hperm hlen
  have hsome : ∀ e ∈ courseScoresOf (finalScores r), e.course.isSome := by
    rw [hf, courseScoresOf_five]
    intro e he
    simp only [List.mem_cons, List.mem_singleton, List.not_mem_nil, or_false] at he
    rcases he with rfl | rfl | rfl | rfl | rfl <;> rfl
  have h1 := hsome first (hperm.mem_iff.mp (List.mem_cons_self _ _))
  have h2 := hsome second (hperm.mem_iff.mp (List.mem_cons_of_mem _ (List.mem_cons_self _ _)))
  refine ⟨_, hrec, h1, h2, ?_, ?_, ?_, ?_, ?_, ?_⟩
  · simp only [hf]; rfl
  · simp only [hf]; rfl
  · simp only [hf]; rfl
  · simp only [hf]; rfl
  · simp only [hf]; rfl
  · show (first :: second :: rest).length = 5
    rw [hlen, hf, courseScoresOf_five]
    rfl

theorem orDefault_parseInt_absent (v : RawValue) (d : ℚ)
    (h : v = .missing ∨ v = .nonNumeric) : orDefault (parseInt v) d = d := by
  rcases h with rfl | rfl <;> rfl

theorem fisInput_absent (input : Field → RawValue)
    (h : ∀ f, input f = .missing ∨ input f = .nonNumeric) : fisInput input = defaultsInput := by
  simp only [fisInput, defaultsInput, orDefault_parseInt_absent _ _ (h _)]

theorem orDefault_parseInt_integer (v : ℤ) (small : |v| < 10 ^ 21) (d : ℚ) (hv : v ≠ 0) :
    orDefault (parseInt (.integer v small)) d = v := by
  simp only [parseInt, orDefault, if_neg hv]

theorem orDefault_parseInt_leading (v : ℤ) (d : ℚ) (hv : v ≠ 0) :
    orDefault (parseInt (.leading v)) d = v := by
  simp only [parseInt, orDefault, if_neg hv]

theorem orDefault_parseInt_zero (small : |(0 : ℤ)| < 10 ^ 21) (d : ℚ) :
    orDefault (parseInt (.integer 0 small)) d = d := by
  simp only [parseInt, orDefault, if_true]

theorem orDefault_parseInt_leading_zero (d : ℚ) :
    orDefault (parseInt (.leading 0)) d = d := by
  simp only [parseInt, orDefault, if_true]

theorem fisInput_get (input : Field → RawValue) (f : Field) :
    (fisInput input).get f = orDefault (parseInt (input f)) (defaultOf f) := by
  cases f <;> rfl

/-! ## Fuzzy rules -/

theorem min_zero_of_nonneg {a b c d : ℚ} (ha : 0 ≤ a) (hb : 0 ≤ b) (hc : 0 ≤ c)
    (hd : 0 ≤ d) : min 0 (min a (min b (min c d))) = 0 :=
  min_eq_left (le_min ha (le_min hb (le_min hc hd)))

theorem rule_nonneg {a b c d e : ℚ} (ha : 0 ≤ a) (hb : 0 ≤ b) (hc : 0 ≤ c) (hd : 0 ≤ d)
    (he : 0 ≤ e) : 0 ≤ min a (min b (min c (min d e))) :=
  le_min ha (le_min hb (le_min hc (le_min hd he)))

theorem rule_le_one {a : ℚ} (b : ℚ) (ha : a ≤ 1) : min a b ≤ 1 :=
  le_trans (min_le_left a b) ha

theorem bonus_bounds {a a' : ℚ} (b b' : ℚ) (ha : a ≤ 1) (ha' : a' ≤ 1) :
    0 ≤ max 0 (max (min a b) (min a' b')) ∧ max 0 (max (min a b) (min a' b')) ≤ 1 :=
  ⟨le_max_left _ _, max_le zero_le_one (max_le (rule_le_one b ha) (rule_le_one b' ha'))⟩

theorem evaluateFuzzyRules_bounds (r : Inputs) :
    ∀ x ∈ evaluateFuzzyRules r, 0 ≤ x ∧ x ≤ 1 := by
  simp only [evaluateFuzzyRules, modifyAt_five_0, modifyAt_five_1, modifyAt_five_2,
    modifyAt_five_3, modifyAt_five_4, getCGPAMembership]
  intro x hx
  simp only [List.mem_cons, List.mem_singleton, List.not_mem_nil, or_false] at hx
  rcases hx with rfl | rfl | rfl | rfl | rfl <;>
    exact bonus_bounds _ _ (trimf_le_one _ _) (trimf_le_one _ _)

theorem evaluateFuzzyRules_zero (r : Inputs) (h : r.cgpa ≥ 5 ∨ r.cgpa ≤ 2) :
    evaluateFuzzyRules r = [0, 0, 0, 0, 0] := by
  have hhigh : trimf r.cgpa (3, 5, 5) = 0 := by
    apply trimf_eq_zero_of_outside
    rcases h with h | h
    · exact Or.inr h
    · exact Or.inl (by linarith)
  have hmed : trimf r.cgpa (2, 3, 4) = 0 := by
    apply trimf_eq_zero_of_outside
    rcases h with h | h
    · exact Or.inr (by linarith)
    · exact Or.inl h
  simp only [evaluateFuzzyRules, modifyAt_five_0, modifyAt_five_1, modifyAt_five_2,
    modifyAt_five_3, modifyAt_five_4, getCGPAMembership, getSubjectMembership,
    getInterestMembership, getDifficultyMembership, getLearningStyleMembership, hhigh, hmed,
    min_zero_of_nonneg (trimf_nonneg _ _) (trimf_nonneg _ _) (trimf_nonneg _ _)
      (trimf_nonneg _ _), max_self]

/-! ## The non-monotonicity examples -/

theorem range_five : List.range 5 = [0, 1, 2, 3, 4] := by decide

theorem finalScores_programmingExample_three :
    finalScores (programmingExample 3) = [21 / 50, 3 / 5, 693 / 500, 12 / 25, 567 / 1000] := by
  have hs : subjectScoring (programmingExample 3) = [21 / 50, 3 / 5, 9 / 25, 12 / 25, 27 / 50] := by
    rw [subjectScoring_slots]
    norm_num [normalizedGrade, programmingExample]
  have hi : interestScoring (programmingExample 3) = [0, 0, 27 / 50, 0, 0] := by
    rw [interestScoring_slots]
    norm_num [interestSlotSpec, interestGroup, Inputs.get, programmingExample, List.filter]
  have hf : evaluateFuzzyRules (programmingExample 3) = [0, 0, 2 / 3, 0, 0] := by
    norm_num [evaluateFuzzyRules, getCGPAMembership, getSubjectMembership,
      getInterestMembership, getDifficultyMembership, getLearningStyleMembership, trimf,
      programmingExample, modifyAt_five_0, modifyAt_five_1, modifyAt_five_2, modifyAt_five_3,
      modifyAt_five_4]
  have hc : combinedScores (programmingExample 3) = [21 / 50, 3 / 5, 11 / 10, 12 / 25, 27 / 50] := by
    simp only [combinedScores, hs, hi, hf, range_five, List.map, List.getD_cons_zero,
      List.getD_cons_succ]
    norm_num
  rw [finalScores_eq_map, hc, adjustByLearningPreferences_slots]
  norm_num [difficultyFactor, styleFactor, programmingExample]

theorem finalScores_programmingExample_four :
    finalScores (programmingExample 4) = [14 / 25, 4 / 5, 3213 / 2500, 16 / 25, 189 / 250] := by
  have hs : subjectScoring (programmingExample 4) = [14 / 25, 4 / 5, 12 / 25, 16 / 25, 18 / 25] := by
    rw [subjectScoring_slots]
    norm_num [normalizedGrade, programmingExample]
  have hi : interestScoring (programmingExample 4) = [0, 0, 27 / 50, 0, 0] := by
    rw [interestScoring_slots]
    norm_num [interestSlotSpec, interestGroup, Inputs.get, programmingExample, List.filter]
  have hf : evaluateFuzzyRules (programmingExample 4) = [0, 0, 0, 0, 0] := by
    norm_num [evaluateFuzzyRules, getCGPAMembership, getSubjectMembership,
      getInterestMembership, getDifficultyMembership, getLearningStyleMembership, trimf,
      programmingExample, modifyAt_five_0, modifyAt_five_1, modifyAt_five_2, modifyAt_five_3,
      modifyAt_five_4]
  have hc : combinedScores (programmingExample 4) = [14 / 25, 4 / 5, 51 / 50, 16 / 25, 18 / 25] := by
    simp only [combinedScores, hs, hi, hf, range_five, List.map, List.getD_cons_zero,
      List.getD_cons_succ]
    norm_num
  rw [finalScores_eq_map, hc, adjustByLearningPreferences_slots]
  norm_num [difficultyFactor, styleFactor, programmingExample]

theorem interestScoring_interestExample_one :
    interestScoring (interestExample 1) = [1, 0, 0, 0, 0] := by
  rw [interestScoring_slots]
  norm_num [interestSlotSpec, interestGroup, Inputs.get, interestExample, defaultsInput,
    List.filter]

theorem interestScoring_interestExample_two :
    interestScoring (interestExample 2) = [33 / 50, 9 / 25, 0, 0, 0] := by
  rw [interestScoring_slots]
  norm_num [interestSlotSpec, interestGroup, Inputs.get, interestExample, defaultsInput,
    List.filter]

/-! ## Claims about `trimf` -/

/-- C12 (evaluation of the code): on the shoulder sets the engine builds, `trimf`
at the peak `x = b` is `0`, not `1`: the test `x <= a || x >= c` returns `0`
before `x === b` is reached whenever `b = a` or `b = c`. -/
theorem trimf_shoulder_peak :
    trimf 5 (3, 5, 5) = 0 ∧ trimf 1 (1, 1, 3) = 0 ∧ trimf 0 (0, 0, 2) = 0 ∧
    (getCGPAMembership 5).high = 0 ∧ (getCGPAMembership 1).low = 0 := by
  refine ⟨?_, ?_, ?_, ?_, ?_⟩ <;> norm_num [trimf, getCGPAMembership]

/-- C13: for all breakpoints `a`, `b`, `c` and every `x` with `x ≤ a` or
`x ≥ c`, `trimf(x, [a, b, c])` is `0`; in particular it is `0` at `x = a` and
at `x = c`. -/
theorem trimf_zero_outside (x a b c : ℚ) (h : x ≤ a ∨ x ≥ c) :
    trimf x (a, b, c) = 0 ∧ trimf a (a, b, c) = 0 ∧ trimf c (a, b, c) = 0 :=
  ⟨trimf_eq_zero_of_outside x a b c h,
    trimf_eq_zero_of_outside a a b c (Or.inl (le_refl a)),
    trimf_eq_zero_of_outside c a b c (Or.inr (le_refl c))⟩

theorem trimf_zero_outside_witness :
    ((1 : ℚ) ≤ 1 ∨ (1 : ℚ) ≥ 3) ∧
    (trimf 1 (1, 2, 3) = 0 ∧ trimf 1 (1, 2, 3) = 0 ∧ trimf 3 (1, 2, 3) = 0) :=
  ⟨Or.inl (le_refl 1), trimf_zero_outside 1 1 2 3 (Or.inl (le_refl 1))⟩

/-- C14: for breakpoints `a < b < c`, `trimf` equals `(x - a) / (b - a)` on
`[a, b]` and `(c - x) / (c - b)` on `[b, c]`; it is non-decreasing on `[a, b]`
and non-increasing on `[b, c]`. -/
theorem trimf_piecewise_monotone (a b c : ℚ) (hab : a < b) (hbc : b < c) :
    (∀ x, a ≤ x → x ≤ b → trimf x (a, b, c) = (x - a) / (b - a)) ∧
    (∀ x, b ≤ x → x ≤ c → trimf x (a, b, c) = (c - x) / (c - b)) ∧
    (∀ x y, a ≤ x → x ≤ y → y ≤ b → trimf x (a, b, c) ≤ trimf y (a, b, c)) ∧
    (∀ x y, b ≤ x → x ≤ y → y ≤ c → trimf y (a, b, c) ≤ trimf x (a, b, c)) := by
  refine ⟨fun x h1 h2 => trimf_rising x a b c hab hbc h1 h2,
    fun x h1 h2 => trimf_falling x a b c hab hbc h1 h2, ?_, ?_⟩
  · intro x y hax hxy hyb
    rw [trimf_rising x a b c hab hbc hax (le_trans hxy hyb),
      trimf_rising y a b c hab hbc (le_trans hax hxy) hyb]
    exact div_le_div_of_nonneg_right (by linarith) (le_of_lt (sub_pos.mpr hab))
  · intro x y hbx hxy hyc
    rw [trimf_falling x a b c hab hbc hbx (le_trans hxy hyc),
      trimf_falling y a b c hab hbc (le_trans hbx hxy) hyc]
    exact div_le_div_of_nonneg_right (by linarith) (le_of_lt (sub_pos.mpr hbc))

theorem trimf_piecewise_monotone_witness :
    (2 : ℚ) < 3 ∧ (3 : ℚ) < 4 ∧
    ((∀ x, (2 : ℚ) ≤ x → x ≤ 3 → trimf x (2, 3, 4) = (x - 2) / (3 - 2)) ∧
    (∀ x, (3 : ℚ) ≤ x → x ≤ 4 → trimf x (2, 3, 4) = (4 - x) / (4 - 3)) ∧
    (∀ x y, (2 : ℚ) ≤ x → x ≤ y → y ≤ 3 → trimf x (2, 3, 4) ≤ trimf y (2, 3, 4)) ∧
    (∀ x y, (3 : ℚ) ≤ x → x ≤ y → y ≤ 4 → trimf y (2, 3, 4) ≤ trimf x (2, 3, 4))) :=
  ⟨by norm_num, by norm_num, trimf_piecewise_monotone 2 3 4 (by norm_num) (by norm_num)⟩

/-! ## Claims about monotonicity -/

/-- C11: for every record, every subject grade field `f` and all values
`1.5 ≤ g ≤ g'`, every slot of `subjectScoring` on the record with `f := g'` is at
least the same slot on the record with `f := g`. -/
theorem subjectScoring_mono (r : Inputs) (f : Field) (g g' : ℚ) (hf : f ∈ subjectFields)
    (hg : 1.5 ≤ g) (hgg : g ≤ g') :
    List.Forall₂ (fun lo hi => lo ≤ hi) (subjectScoring (r.set f g))
      (subjectScoring (r.set f g')) := by
  have hn := normalizedGrade_mono hg hgg
  simp only [subjectFields, List.mem_cons, List.mem_singleton, List.not_mem_nil, or_false] at hf
  rw [subjectScoring_slots, subjectScoring_slots]
  rcases hf with h | h | h | h | h <;> subst h <;> simp only [Inputs.set] <;>
    refine List.Forall₂.cons ?_ (List.Forall₂.cons ?_ (List.Forall₂.cons ?_
      (List.Forall₂.cons ?_ (List.Forall₂.cons ?_ List.Forall₂.nil)))) <;>
    norm_num <;> linarith

theorem subjectScoring_mono_witness :
    Field.programming ∈ subjectFields ∧ (1.5 : ℚ) ≤ 2 ∧ (2 : ℚ) ≤ 4 ∧
    List.Forall₂ (fun lo hi => lo ≤ hi) (subjectScoring (sampleInput.set .programming 2))
      (subjectScoring (sampleInput.set .programming 4)) :=
  ⟨by simp [subjectFields], by norm_num, by norm_num,
    subjectScoring_mono sampleInput .programming 2 4 (by simp [subjectFields]) (by norm_num)
      (by norm_num)⟩

/-! ## Claims about the boundary mapping -/

/-- C15: when every field of the request body is missing or non-numeric, the
`/api/recommend` mapping produces the all-defaults record (`cgpa` 3, subject
grades 0, interests 1, `difficulty` 2, `learningStyle` 1), and `recommend` on it
returns a complete result. -/
theorem fisInput_defaults_complete (input : Field → RawValue)
    (h : ∀ f, input f = .missing ∨ input f = .nonNumeric) :
    fisInput input = defaultsInput ∧
    ∃ res, recommend (fisInput input) = some res ∧ res.Complete :=
  ⟨fisInput_absent input h, recommend_complete (fisInput input)⟩

theorem fisInput_defaults_complete_witness :
    (∀ f : Field, (fun _ => RawValue.missing) f = RawValue.missing ∨
      (fun _ => RawValue.missing) f = RawValue.nonNumeric) ∧
    (fisInput (fun _ => RawValue.missing) = defaultsInput ∧
      ∃ res, recommend (fisInput (fun _ => RawValue.missing)) = some res ∧ res.Complete) :=
  ⟨fun _ => Or.inl rfl, fisInput_defaults_complete (fun _ => RawValue.missing)
    (fun _ => Or.inl rfl)⟩

/-- C16 (counterexample): the integer `0` supplied for `cgpa` is not passed
through: the mapping `parseInt(input.cgpa) || 3` replaces it by `3`. -/
theorem fisInput_zero_replaced :
    (fun _ => RawValue.integer 0 (by norm_num)) Field.cgpa = RawValue.integer 0 (by norm_num) ∧
    (fisInput (fun _ => RawValue.integer 0 (by norm_num))).get Field.cgpa = 3 ∧
    (fisInput (fun _ => RawValue.integer 0 (by norm_num))).get Field.cgpa ≠ ((0 : ℤ) : ℚ) := by
  refine ⟨rfl, ?_, ?_⟩
  · rw [fisInput_get, orDefault_parseInt_zero]
    rfl
  · rw [fisInput_get, orDefault_parseInt_zero]
    norm_num [defaultOf]

/-- C16 (amended): every nonzero integer of magnitude below `10^21` supplied for
a field, in range or not, is passed through unchanged; a field that is missing,
has no leading integer, or is read by `parseInt` as `0` is set to the documented
default of that field; and any other value is replaced by the nonzero integer
that `parseInt` reads at the start of its string form (so a number of magnitude
`10^21` or more, rendered `1e+21`, is not passed through but read as its leading
digits). -/
theorem fisInput_passthrough (input : Field → RawValue) (f : Field) :
    (∀ (v : ℤ) (small : |v| < 10 ^ 21),
      input f = .integer v small → v ≠ 0 → (fisInput input).get f = v) ∧
    (∀ v : ℤ, input f = .leading v → v ≠ 0 → (fisInput input).get f = v) ∧
    (input f = .missing ∨ input f = .nonNumeric ∨
        (∃ small, input f = .integer 0 small) ∨ input f = .leading 0 →
      (fisInput input).get f = defaultOf f) := by
  refine ⟨?_, ?_, ?_⟩
  · intro v small hv hv0
    rw [fisInput_get, hv, orDefault_parseInt_integer v small _ hv0]
  · intro v hv hv0
    rw [fisInput_get, hv, orDefault_parseInt_leading v _ hv0]
  · intro h
    rw [fisInput_get]
    rcases h with h | h | ⟨small, h⟩ | h
    · rw [h]
      rfl
    · rw [h]
      rfl
    · rw [h, orDefault_parseInt_zero]
    · rw [h, orDefault_parseInt_leading_zero]

theorem fisInput_passthrough_witness :
    (fisInput (fun _ => RawValue.integer 7 (by norm_num))).get Field.cgpa = ((7 : ℤ) : ℚ) ∧
    (fisInput (fun _ => RawValue.integer (-40) (by norm_num))).get Field.difficulty
      = ((-40 : ℤ) : ℚ) ∧
    (fisInput (fun _ => RawValue.leading 1)).get Field.cgpa = ((1 : ℤ) : ℚ) ∧
    (fisInput (fun _ => RawValue.integer 0 (by norm_num))).get Field.difficulty
      = defaultOf Field.difficulty :=
  ⟨(fisInput_passthrough (fun _ => RawValue.integer 7 (by norm_num)) Field.cgpa).1 7
      (by norm_num) rfl (by decide),
    (fisInput_passthrough (fun _ => RawValue.integer (-40) (by norm_num)) Field.difficulty).1
      (-40) (by norm_num) rfl (by decide),
    (fisInput_passthrough (fun _ => RawValue.leading 1) Field.cgpa).2.1 1 rfl (by decide),
    (fisInput_passthrough (fun _ => RawValue.integer 0 (by norm_num)) Field.difficulty).2.2
      (Or.inr (Or.inr (Or.inl ⟨by norm_num, rfl⟩)))⟩

/-! ## Claims about the fuzzy stage -/

/-- C17: for every record with `cgpa ≥ 5` or `cgpa ≤ 2`, `evaluateFuzzyRules`
returns `[0, 0, 0, 0, 0]`, so the bonus `fuzzyScores[idx] * 0.3` added to every
course is `0`. -/
theorem evaluateFuzzyRules_extreme_cgpa (r : Inputs) (h : r.cgpa ≥ 5 ∨ r.cgpa ≤ 2) :
    evaluateFuzzyRules r = [0, 0, 0, 0, 0] ∧
    ∀ idx : Nat, (evaluateFuzzyRules r).getD idx 0 * 0.3 = 0 := by
  have hz := evaluateFuzzyRules_zero r h
  refine ⟨hz, ?_⟩
  intro idx
  rw [hz]
  match idx with
  | 0 | 1 | 2 | 3 | 4 => norm_num
  | n + 5 => norm_num

theorem evaluateFuzzyRules_extreme_cgpa_witness :
    (sampleInput.cgpa ≥ 5 ∨ sampleInput.cgpa ≤ 2) ∧
    (evaluateFuzzyRules sampleInput = [0, 0, 0, 0, 0] ∧
      ∀ idx : Nat, (evaluateFuzzyRules sampleInput).getD idx 0 * 0.3 = 0) :=
  ⟨Or.inl (by norm_num [sampleInput]),
    evaluateFuzzyRules_extreme_cgpa sampleInput (Or.inl (by norm_num [sampleInput]))⟩

/-- C18: for every record, `evaluateFuzzyRules` returns five entries, each in the
interval `[0, 1]`, so the enhancement step `score + fuzzyScores[idx] * 0.3` raises
every slot of a five-slot score vector by at least `0` and at most `0.3`. -/
theorem evaluateFuzzyRules_range (r : Inputs) (s0 s1 s2 s3 s4 : ℚ) :
    (evaluateFuzzyRules r).length = 5 ∧
    (∀ x ∈ evaluateFuzzyRules r, 0 ≤ x ∧ x ≤ 1) ∧
    List.Forall₂ (fun before after => before ≤ after ∧ after ≤ before + 0.3)
      [s0, s1, s2, s3, s4]
      (mapAddIdx [s0, s1, s2, s3, s4] (fun idx => (evaluateFuzzyRules r).getD idx 0 * 0.3)) := by
  have hb := evaluateFuzzyRules_bounds r
  obtain ⟨a, b, c, d, e, hf⟩ := evaluateFuzzyRules_five r
  rw [hf] at hb ⊢
  have ha := hb a (by simp)
  have hb' := hb b (by simp)
  have hc := hb c (by simp)
  have hd := hb d (by simp)
  have he := hb e (by simp)
  refine ⟨rfl, hb, ?_⟩
  rw [mapAddIdx_five]
  simp only [List.getD_cons_zero, List.getD_cons_succ]
  refine List.Forall₂.cons ?_ (List.Forall₂.cons ?_ (List.Forall₂.cons ?_
    (List.Forall₂.cons ?_ (List.Forall₂.cons ?_ List.Forall₂.nil)))) <;>
    constructor <;> norm_num <;> linarith
/-! ## Claims about non-monotonicity -/

/-- C19: the final score is not monotone in the programming grade: on the record
with `cgpa` 3, `iot` 3, `difficulty` 3, `learningStyle` 4, the other subjects 0
and the other interests 1, raising `programming` from 3 to 4 lowers the final
Fuzzy Logic score returned by `recommend` from 693/500 to 3213/2500. -/
theorem recommend_not_monotone_in_programming :
    programmingExample 4 = (programmingExample 3).set .programming 4 ∧
    ∃ res3 res4 low high,
      recommend (programmingExample 3) = some res3 ∧
      recommend (programmingExample 4) = some res4 ∧
      res3.probability_FuzzyLogic = some low ∧
      res4.probability_FuzzyLogic = some high ∧
      low = 693 / 500 ∧ high = 3213 / 2500 ∧ high < low := by
  obtain ⟨f3, s3, r3, -, h3⟩ := recommend_eq (programmingExample 3)
  obtain ⟨f4, s4, r4, -, h4⟩ := recommend_eq (programmingExample 4)
  refine ⟨rfl, _, _, 693 / 500, 3213 / 2500, h3, h4, ?_, ?_, rfl, rfl, by norm_num⟩
  · simp only [finalScores_programmingExample_three]
    rfl
  · simp only [finalScores_programmingExample_four]
    rfl

/-- C20: `interestScoring` is not monotone in its interest fields: on the record
with `dataScience` 5, `webDevelopment` 1 and `mobileAppDevelopment` 1, raising
`webDevelopment` from 1 to 2 lowers the Gaming slot from 1 to 33/50, because the
group total is averaged over two fields instead of one. -/
theorem interestScoring_not_monotone :
    interestExample 2 = (interestExample 1).set .webDevelopment 2 ∧
    (interestScoring (interestExample 1))[0]? = some 1 ∧
    (interestScoring (interestExample 2))[0]? = some (33 / 50) ∧
    (33 / 50 : ℚ) < 1 ∧
    (interestTotals (interestExample 1) 1.5
      { indices := [.dataScience, .webDevelopment, .mobileAppDevelopment], course := 0,
        weights := [1.0, 0.8, 0.9] }).2 = 1 ∧
    (interestTotals (interestExample 2) 1.5
      { indices := [.dataScience, .webDevelopment, .mobileAppDevelopment], course := 0,
        weights := [1.0, 0.8, 0.9] }).2 = 2 := by
  refine ⟨rfl, ?_, ?_, by norm_num, ?_, ?_⟩
  · rw [interestScoring_interestExample_one]
    rfl
  · rw [interestScoring_interestExample_two]
    rfl
  · norm_num [interestTotals, List.enum, List.enumFrom, List.foldl, Inputs.get, interestExample,
      defaultsInput]
  · norm_num [interestTotals, List.enum, List.enumFrom, List.foldl, Inputs.get, interestExample,
      defaultsInput]

/-! ## The all-defaults record -/

theorem subjectScoring_defaults : subjectScoring defaultsInput = [0, 0, 0, 0, 0] := by
  rw [subjectScoring_slots]
  norm_num [normalizedGrade, defaultsInput]

theorem interestScoring_defaults : interestScoring defaultsInput = [0, 0, 0, 0, 0] := by
  rw [interestScoring_slots]
  norm_num [interestSlotSpec, interestGroup, Inputs.get, defaultsInput, List.filter]

theorem evaluateFuzzyRules_defaults : evaluateFuzzyRules defaultsInput = [0, 0, 0, 0, 0] := by
  norm_num [evaluateFuzzyRules, getCGPAMembership, getSubjectMembership,
    getInterestMembership, getDifficultyMembership, getLearningStyleMembership, trimf,
    defaultsInput, modifyAt_five_0, modifyAt_five_1, modifyAt_five_2, modifyAt_five_3,
    modifyAt_five_4]

theorem finalScores_defaults :
    finalScores defaultsInput = [1 / 10, 1 / 10, 1 / 10, 1 / 10, 1 / 10] := by
  have hc : combinedScores defaultsInput = [0, 0, 0, 0, 0] := by
    simp only [combinedScores, subjectScoring_defaults, interestScoring_defaults,
      evaluateFuzzyRules_defaults, range_five, List.map, List.getD_cons_zero,
      List.getD_cons_succ]
    norm_num
  rw [finalScores_eq_map, hc, adjustByLearningPreferences_slots]
  norm_num [difficultyFactor, styleFactor, defaultsInput]

theorem arraySort_defaults :
    arraySort scoreComparator (courseScoresOf (finalScores defaultsInput)) =
      [ { course := some "Gaming", score := 1 / 10, confidence := 1 / 10, index := 0 },
        { course := some "Web Development", score := 1 / 10, confidence := 1 / 10, index := 1 },
        { course := some "Fuzzy Logic", score := 1 / 10, confidence := 1 / 10, index := 2 },
        { course := some "Database Design", score := 1 / 10, confidence := 1 / 10, index := 3 },
        { course := some "Software Validation & Verification", score := 1 / 10,
          confidence := 1 / 10, index := 4 } ] := by
  rw [finalScores_defaults, courseScoresOf_five]
  norm_num [arraySort, sortInsert, scoreComparator]

/-! ## Claim about the all-defaults record -/

/-- C21: on the all-defaults record (`cgpa` 3, subject grades 0, interests 1,
`difficulty` 2, `learningStyle` 1) the subject, interest and fuzzy vectors are all
zero, `recommend` returns the five final scores `0.1`, and by the tie-break the
first recommended course is "Gaming", the alternative is "Web Development" and
`allScores` lists the five courses in catalog order. -/
theorem recommend_defaults :
    fisInput (fun _ => RawValue.missing) = defaultsInput ∧
    subjectScoring defaultsInput = [0, 0, 0, 0, 0] ∧
    interestScoring defaultsInput = [0, 0, 0, 0, 0] ∧
    evaluateFuzzyRules defaultsInput = [0, 0, 0, 0, 0] ∧
    ∃ res,
      recommend defaultsInput = some res ∧
      res.probability_Gaming = some 0.1 ∧
      res.probability_WebDevelopment = some 0.1 ∧
      res.probability_FuzzyLogic = some 0.1 ∧
      res.probability_DatabaseDesign = some 0.1 ∧
      res.probability_SoftwareValidation_Verification = some 0.1 ∧
      res.firstRecommendedCourse = some "Gaming" ∧
      res.alternativeRecommendedCourse = some "Web Development" ∧
      res.firstConfidence = 0.1 ∧ res.secondConfidence = 0.1 ∧
      res.allScores.map (fun e => e.course) = courseNames.map some ∧
      res.allScores.map (fun e => e.index) = [0, 1, 2, 3, 4] ∧
      res.allScores.map (fun e => e.score) = [0.1, 0.1, 0.1, 0.1, 0.1] := by
  refine ⟨fisInput_absent _ (fun _ => Or.inl rfl), subjectScoring_defaults,
    interestScoring_defaults, evaluateFuzzyRules_defaults, ?_⟩
  obtain ⟨first, second, rest, hs, hrec⟩ := recommend_eq defaultsInput
  rw [arraySort_defaults] at hs
  simp only [List.cons.injEq] at hs
  obtain ⟨h1, h2, h3⟩ := hs
  have hp : ∀ i : Nat, i < 5 → (finalScores defaultsInput)[i]? = some (0.1 : ℚ) := by
    intro i hi
    rw [finalScores_defaults]
    interval_cases i <;> norm_num
  refine ⟨_, hrec, hp 0 (by norm_num), hp 1 (by norm_num), hp 2 (by norm_num),
    hp 3 (by norm_num), hp 4 (by norm_num), ?_, ?_, ?_, ?_, ?_, ?_, ?_⟩
  · show first.course = _
    rw [← h1]
  · show second.course = _
    rw [← h2]
  · show first.confidence = _
    rw [← h1]
    norm_num
  · show second.confidence = _
    rw [← h2]
    norm_num
  · show (first :: second :: rest).map (fun e => e.course) = _
    rw [← h1, ← h2, ← h3]
    rfl
  · show (first :: second :: rest).map (fun e => e.index) = _
    rw [← h1, ← h2, ← h3]
    rfl
  · show (first :: second :: rest).map (fun e => e.score) = _
    rw [← h1, ← h2, ← h3]
    norm_num

end FuzzyInferenceSystem
